import Mathlib

/-! ## ADS1115 driver: register codec, conversion protocol and voltage scaling

A shallow embedding of the two drivers of the repository,
`ads1115.c` (with `ads1115.h`) and `libads1115.c`.

Conventions of the embedding.

* A `uint8_t` or `uint16_t` object is a `Nat`; every store into one reduces
  modulo `2^8` or `2^16`.
* An `enum` parameter is the integer it carries in C; the closed enumerations
  of `ads1115.h` are inductive types with a `val` giving that integer.
* `float` and `double` quantities are rationals (`ℚ`) and their products are
  taken exactly, except in the definitions whose name ends in `_float`, which
  round to binary32 and binary64 where the C objects do.
* The bus transport is a script: the list of the answers the transport gives
  to the successive `read`/`write` calls.  A driver function consumes one
  answer per call and reports the calls it has made as a trace.
-/

namespace ADS1115

/-! ## `ads1115.h`: register constants -/

def POINTER_REGISTER_CONVERSION : Nat := 0b00000000
def POINTER_REGISTER_CONFIG : Nat := 0b00000001
def POINTER_REGISTER_LOW_THRESHOLD : Nat := 0b00000010
def POINTER_REGISTER_HIGH_THRESHOLD : Nat := 0b00000011

def CONFIG_REGISTER_BUSY : Nat := 0b00000000
def CONFIG_REGISTER_IDLE : Nat := 0b10000000
def CONFIG_REGISTER_START_CONVERSION : Nat := 0b10000000

def CONFIG_REGISTER_MULT_AIN_0_AND_1_DIFFERENTIAL : Nat := 0b00000000
def CONFIG_REGISTER_MULT_AIN_0_AND_3_DIFFERENTIAL : Nat := 0b00010000
def CONFIG_REGISTER_MULT_AIN_1_AND_3_DIFFERENTIAL : Nat := 0b00100000
def CONFIG_REGISTER_MULT_AIN_2_AND_3_DIFFERENTIAL : Nat := 0b00110000
def CONFIG_REGISTER_MULT_AIN_0 : Nat := 0b01000000
def CONFIG_REGISTER_MULT_AIN_1 : Nat := 0b01010000
def CONFIG_REGISTER_MULT_AIN_2 : Nat := 0b01100000
def CONFIG_REGISTER_MULT_AIN_3 : Nat := 0b01110000

def CONFIG_REGISTER_PGA_6_144 : Nat := 0b00000000
def CONFIG_REGISTER_PGA_4_096 : Nat := 0b00000010
def CONFIG_REGISTER_PGA_2_048 : Nat := 0b00000100
def CONFIG_REGISTER_PGA_1_024 : Nat := 0b00000110
def CONFIG_REGISTER_PGA_0_512 : Nat := 0b00001000
def CONFIG_REGISTER_PGA_0_256 : Nat := 0b00001010
def PGA_6_144V : ℚ := 6.144
def PGA_4_096V : ℚ := 4.096
def PGA_2_048V : ℚ := 2.048
def PGA_1_024V : ℚ := 1.024
def PGA_0_512V : ℚ := 0.512
def PGA_0_256V : ℚ := 0.256

def CONFIG_REGISTER_CONTINUOUS_CONVERSION : Nat := 0b00000000
def CONFIG_REGISTER_SINGLE_CONVERSION : Nat := 0b00000001
def CONFIG_REGISTER_POWER_DOWN_STATE : Nat := 0b00000001

def CONFIG_REGISTER_SPS_8 : Nat := 0b00000000
def CONFIG_REGISTER_SPS_16 : Nat := 0b00100000
def CONFIG_REGISTER_SPS_32 : Nat := 0b01000000
def CONFIG_REGISTER_SPS_64 : Nat := 0b01100000
def CONFIG_REGISTER_SPS_128 : Nat := 0b10000000
def CONFIG_REGISTER_SPS_250 : Nat := 0b10100000
def CONFIG_REGISTER_SPS_475 : Nat := 0b11000000
def CONFIG_REGISTER_SPS_860 : Nat := 0b11100000

def CONFIG_REGISTER_COMPARATOR_MODE_TRADITIONAL : Nat := 0b00000000
def CONFIG_REGISTER_COMPARATOR_MODE_WINDOW : Nat := 0b00010000

def CONFIG_REGISTER_COMPARATOR_POLARITY_LOW : Nat := 0b00000000
def CONFIG_REGISTER_COMPARATOR_POLARITY_HIGH : Nat := 0b00001000

def CONFIG_REGISTER_COMPARATOR_NON_LATCHING : Nat := 0b00000000
def CONFIG_REGISTER_COMPARATOR_LATCHING : Nat := 0b00000100

def CONFIG_REGISTER_COMPARATOR_QUEUE_LENGTH_1 : Nat := 0b00000000
def CONFIG_REGISTER_COMPARATOR_QUEUE_LENGTH_2 : Nat := 0b00000001
def CONFIG_REGISTER_COMPARATOR_QUEUE_LENGTH_4 : Nat := 0b00000010
def CONFIG_REGISTER_COMPARATOR_QUEUE_DISABLED : Nat := 0b00000011

/-! ## `ads1115.h`: the closed enumerations -/

/-- The enumeration `enum POINTER_MASK`. -/
inductive POINTER_MASK where
  | CONVERSION
  | CONFIG
  | LOW_THRESHOLD
  | HIGH_THRESHOLD
  deriving DecidableEq, Repr

/-- The integer carried by a member of `enum POINTER_MASK`. -/
def POINTER_MASK.val : POINTER_MASK → Nat
  | .CONVERSION => POINTER_REGISTER_CONVERSION
  | .CONFIG => POINTER_REGISTER_CONFIG
  | .LOW_THRESHOLD => POINTER_REGISTER_LOW_THRESHOLD
  | .HIGH_THRESHOLD => POINTER_REGISTER_HIGH_THRESHOLD

/-- The enumeration `enum MULT_MASK`. -/
inductive MULT_MASK where
  | MULT_AIN_0_AND_1_DIFFERENTIAL
  | MULT_AIN_0_AND_3_DIFFERENTIAL
  | MULT_AIN_1_AND_3_DIFFERENTIAL
  | MULT_AIN_2_AND_3_DIFFERENTIAL
  | MULT_AIN_0
  | MULT_AIN_1
  | MULT_AIN_2
  | MULT_AIN_3
  deriving DecidableEq, Repr

/-- The integer carried by a member of `enum MULT_MASK`. -/
def MULT_MASK.val : MULT_MASK → Nat
  | .MULT_AIN_0_AND_1_DIFFERENTIAL => CONFIG_REGISTER_MULT_AIN_0_AND_1_DIFFERENTIAL
  | .MULT_AIN_0_AND_3_DIFFERENTIAL => CONFIG_REGISTER_MULT_AIN_0_AND_3_DIFFERENTIAL
  | .MULT_AIN_1_AND_3_DIFFERENTIAL => CONFIG_REGISTER_MULT_AIN_1_AND_3_DIFFERENTIAL
  | .MULT_AIN_2_AND_3_DIFFERENTIAL => CONFIG_REGISTER_MULT_AIN_2_AND_3_DIFFERENTIAL
  | .MULT_AIN_0 => CONFIG_REGISTER_MULT_AIN_0
  | .MULT_AIN_1 => CONFIG_REGISTER_MULT_AIN_1
  | .MULT_AIN_2 => CONFIG_REGISTER_MULT_AIN_2
  | .MULT_AIN_3 => CONFIG_REGISTER_MULT_AIN_3

/-- The 3-bit multiplexer code of the register documentation in `ads1115.h`
(bits 14:12: `000` is AIN0/AIN1, ..., `111` is AIN3/GND). -/
def MULT_MASK.code : MULT_MASK → Nat
  | .MULT_AIN_0_AND_1_DIFFERENTIAL => 0
  | .MULT_AIN_0_AND_3_DIFFERENTIAL => 1
  | .MULT_AIN_1_AND_3_DIFFERENTIAL => 2
  | .MULT_AIN_2_AND_3_DIFFERENTIAL => 3
  | .MULT_AIN_0 => 4
  | .MULT_AIN_1 => 5
  | .MULT_AIN_2 => 6
  | .MULT_AIN_3 => 7

/-- The enumeration `enum PGA_MASK`. -/
inductive PGA_MASK where
  | PGA_6_144
  | PGA_4_096
  | PGA_2_048
  | PGA_1_024
  | PGA_0_512
  | PGA_0_256
  deriving DecidableEq, Repr

/-- The integer carried by a member of `enum PGA_MASK`. -/
def PGA_MASK.val : PGA_MASK → Nat
  | .PGA_6_144 => CONFIG_REGISTER_PGA_6_144
  | .PGA_4_096 => CONFIG_REGISTER_PGA_4_096
  | .PGA_2_048 => CONFIG_REGISTER_PGA_2_048
  | .PGA_1_024 => CONFIG_REGISTER_PGA_1_024
  | .PGA_0_512 => CONFIG_REGISTER_PGA_0_512
  | .PGA_0_256 => CONFIG_REGISTER_PGA_0_256

/-- The 3-bit gain code of the register documentation in `ads1115.h`
(bits 11:9: `000` is ±6.144 V, ..., `101` is ±0.256 V). -/
def PGA_MASK.code : PGA_MASK → Nat
  | .PGA_6_144 => 0
  | .PGA_4_096 => 1
  | .PGA_2_048 => 2
  | .PGA_1_024 => 3
  | .PGA_0_512 => 4
  | .PGA_0_256 => 5

/-- Full-scale range in volts selected by a 3-bit gain code, as tabulated in the
register documentation of `ads1115.h` (bits 11:9). -/
def full_scale_volts (code : Nat) : ℚ :=
  match code with
  | 0 => 6.144
  | 1 => 4.096
  | 2 => 2.048
  | 3 => 1.024
  | 4 => 0.512
  | _ => 0.256

/-- The enumeration `enum CONVERSION_MODE_MASK`. -/
inductive CONVERSION_MODE_MASK where
  | CONTINUOUS
  | SINGLE
  | POWER_DOWN_STATE
  deriving DecidableEq, Repr

/-- The integer carried by a member of `enum CONVERSION_MODE_MASK`. -/
def CONVERSION_MODE_MASK.val : CONVERSION_MODE_MASK → Nat
  | .CONTINUOUS => CONFIG_REGISTER_CONTINUOUS_CONVERSION
  | .SINGLE => CONFIG_REGISTER_SINGLE_CONVERSION
  | .POWER_DOWN_STATE => CONFIG_REGISTER_POWER_DOWN_STATE

/-- The enumeration `enum RATE_MASK`. -/
inductive RATE_MASK where
  | SPS_8
  | SPS_16
  | SPS_32
  | SPS_64
  | SPS_128
  | SPS_250
  | SPS_475
  | SPS_860
  deriving DecidableEq, Repr

/-- The integer carried by a member of `enum RATE_MASK`. -/
def RATE_MASK.val : RATE_MASK → Nat
  | .SPS_8 => CONFIG_REGISTER_SPS_8
  | .SPS_16 => CONFIG_REGISTER_SPS_16
  | .SPS_32 => CONFIG_REGISTER_SPS_32
  | .SPS_64 => CONFIG_REGISTER_SPS_64
  | .SPS_128 => CONFIG_REGISTER_SPS_128
  | .SPS_250 => CONFIG_REGISTER_SPS_250
  | .SPS_475 => CONFIG_REGISTER_SPS_475
  | .SPS_860 => CONFIG_REGISTER_SPS_860

/-- The 3-bit data-rate code of the register documentation in `ads1115.h`
(bits 7:5: `000` is 8 SPS, ..., `111` is 860 SPS). -/
def RATE_MASK.code : RATE_MASK → Nat
  | .SPS_8 => 0
  | .SPS_16 => 1
  | .SPS_32 => 2
  | .SPS_64 => 3
  | .SPS_128 => 4
  | .SPS_250 => 5
  | .SPS_475 => 6
  | .SPS_860 => 7

/-- The enumeration `enum COMPARATOR_MODE_MASK`. -/
inductive COMPARATOR_MODE_MASK where
  | TRADITIONAL
  | WINDOW
  deriving DecidableEq, Repr

/-- The integer carried by a member of `enum COMPARATOR_MODE_MASK`. -/
def COMPARATOR_MODE_MASK.val : COMPARATOR_MODE_MASK → Nat
  | .TRADITIONAL => CONFIG_REGISTER_COMPARATOR_MODE_TRADITIONAL
  | .WINDOW => CONFIG_REGISTER_COMPARATOR_MODE_WINDOW

/-- The comparator-mode bit of the register documentation (bit 4). -/
def COMPARATOR_MODE_MASK.code : COMPARATOR_MODE_MASK → Nat
  | .TRADITIONAL => 0
  | .WINDOW => 1

/-- The enumeration `enum COMPARATOR_POLARITY_MASK`. -/
inductive COMPARATOR_POLARITY_MASK where
  | LOW
  | HIGH
  deriving DecidableEq, Repr

/-- The integer carried by a member of `enum COMPARATOR_POLARITY_MASK`. -/
def COMPARATOR_POLARITY_MASK.val : COMPARATOR_POLARITY_MASK → Nat
  | .LOW => CONFIG_REGISTER_COMPARATOR_POLARITY_LOW
  | .HIGH => CONFIG_REGISTER_COMPARATOR_POLARITY_HIGH

/-- The comparator-polarity bit of the register documentation (bit 3). -/
def COMPARATOR_POLARITY_MASK.code : COMPARATOR_POLARITY_MASK → Nat
  | .LOW => 0
  | .HIGH => 1

/-- The enumeration `enum COMPARATOR_LATCH_MASK`. -/
inductive COMPARATOR_LATCH_MASK where
  | NON_LATCHING
  | LATCHING
  deriving DecidableEq, Repr

/-- The integer carried by a member of `enum COMPARATOR_LATCH_MASK`. -/
def COMPARATOR_LATCH_MASK.val : COMPARATOR_LATCH_MASK → Nat
  | .NON_LATCHING => CONFIG_REGISTER_COMPARATOR_NON_LATCHING
  | .LATCHING => CONFIG_REGISTER_COMPARATOR_LATCHING

/-- The comparator-latch bit of the register documentation (bit 2). -/
def COMPARATOR_LATCH_MASK.code : COMPARATOR_LATCH_MASK → Nat
  | .NON_LATCHING => 0
  | .LATCHING => 1

/-- The enumeration `enum COMPARATOR_QUEUE_MASK`. -/
inductive COMPARATOR_QUEUE_MASK where
  | QUEUE_LENGTH_1
  | QUEUE_LENGTH_2
  | QUEUE_LENGTH_4
  | QUEUE_DISABLED
  deriving DecidableEq, Repr

/-- The integer carried by a member of `enum COMPARATOR_QUEUE_MASK`. -/
def COMPARATOR_QUEUE_MASK.val : COMPARATOR_QUEUE_MASK → Nat
  | .QUEUE_LENGTH_1 => CONFIG_REGISTER_COMPARATOR_QUEUE_LENGTH_1
  | .QUEUE_LENGTH_2 => CONFIG_REGISTER_COMPARATOR_QUEUE_LENGTH_2
  | .QUEUE_LENGTH_4 => CONFIG_REGISTER_COMPARATOR_QUEUE_LENGTH_4
  | .QUEUE_DISABLED => CONFIG_REGISTER_COMPARATOR_QUEUE_DISABLED

/-- The 2-bit comparator-queue code of the register documentation (bits 1:0). -/
def COMPARATOR_QUEUE_MASK.code : COMPARATOR_QUEUE_MASK → Nat
  | .QUEUE_LENGTH_1 => 0
  | .QUEUE_LENGTH_2 => 1
  | .QUEUE_LENGTH_4 => 2
  | .QUEUE_DISABLED => 3

/-! ## The bus transport -/

/-- Answer of the bus transport to one `read` or `write` call: the value the
call returns and, for a read, the bytes the device delivers. -/
structure Resp where
  ret : Int
  b0 : Nat
  b1 : Nat
  deriving DecidableEq, Repr

/-- One call made on the bus handle: the bytes handed to `write`, or the
length asked of `read`, with the value the call returned. -/
inductive Xfer where
  | write (bytes : List Nat) (ret : Int)
  | read (len : Nat) (ret : Int)
  deriving DecidableEq, Repr

/-- Effect of `read(handle, buffer, 2)` on a two-byte buffer: the call stores
as many bytes as it returns, and nothing when it fails. -/
def read_into (buffer : Nat × Nat) (r : Resp) : Nat × Nat :=
  if 2 ≤ r.ret then (r.b0 % 256, r.b1 % 256)
  else if r.ret = 1 then (r.b0 % 256, buffer.2)
  else buffer

/-- Number of bytes a bus call asked to move. -/
def Xfer.requested : Xfer → Nat
  | .write bytes _ => bytes.length
  | .read len _ => len

/-- Value a bus call returned. -/
def Xfer.ret : Xfer → Int
  | .write _ ret => ret
  | .read _ ret => ret

/-- Whether a bus call is a write of three bytes that begins with the selector
of the configuration register. -/
def Xfer.is_config_write : Xfer → Bool
  | .write [b0, _, _] _ => b0 == 0b00000001
  | _ => false

/-- A poll answer of full length whose first byte has bit 7, the done bit,
clear. -/
def Resp.busy (r : Resp) : Prop := r.ret = 2 ∧ r.b0 % 256 &&& 0x80 = 0

/-- A poll answer of full length whose first byte has bit 7, the done bit,
set. -/
def Resp.done (r : Resp) : Prop := r.ret = 2 ∧ r.b0 % 256 &&& 0x80 ≠ 0

instance (r : Resp) : Decidable r.busy := by unfold Resp.busy; infer_instance

instance (r : Resp) : Decidable r.done := by unfold Resp.done; infer_instance

/-- Result of a driver call run against a script of bus answers: the value
returned (`none` when the script ends while the call still waits on the bus),
the module state, the bus calls made and the answers left unused. -/
structure Outcome (σ : Type) where
  value : Option ℚ
  state : σ
  trace : List Xfer
  rest : List Resp

/-- The outcomes of `n` calls of a driver function made one after another:
each call starts from the state and the unused bus answers the call before it
left. -/
def in_sequence {σ : Type} (conv : σ → List Resp → Outcome σ) :
    Nat → σ → List Resp → List (Outcome σ)
  | 0, _, _ => []
  | n + 1, s, bus =>
    let o := conv s bus
    o :: in_sequence conv n o.state o.rest

/-- State of a summing loop when it stops: `finished` is false when the script
ends inside one of the calls. -/
structure Summed (σ : Type) where
  finished : Bool
  sum : ℚ
  state : σ
  trace : List Xfer
  rest : List Resp

/-- The loop `for (c = 0; c < n; c++) sum += conv();` shared by
`ADS1115_get_average_conversions` and `avgReads`. -/
def sum_loop {σ : Type} (conv : σ → List Resp → Outcome σ) :
    Nat → σ → List Resp → ℚ → Summed σ
  | 0, s, bus, sum => ⟨true, sum, s, [], bus⟩
  | n + 1, s, bus, sum =>
    let o := conv s bus
    match o.value with
    | none => ⟨false, sum, o.state, o.trace, o.rest⟩
    | some v =>
      let r := sum_loop conv n o.state o.rest (sum + v)
      { r with trace := o.trace ++ r.trace }

/-- Result of an averaging call: the loop result and the divisor of the final
division. -/
structure Averaged (σ : Type) extends Summed σ where
  count : Int

/-- The value an averaging call returns, `sum / count`: there is none when the
script ends inside the loop, and none when the divisor is zero. -/
def Averaged.value {σ : Type} (a : Averaged σ) : Option ℚ :=
  if a.finished = true ∧ a.count ≠ 0 then some (a.sum / (a.count : ℚ)) else none

/-- What an initialisation hands to the transport: the bus id the device path
is built from and the address bound to the handle. -/
structure Binding where
  id : Int
  addr : Int
  deriving DecidableEq, Repr

/-! ## `ads1115.c`: module state and setters -/

/-- The file-scope variables of `ads1115.c`. -/
structure State where
  ui8_pointer_register_mask : Nat
  ui8_config_register_operation_mask : Nat
  ui8_config_register_mult_mask : Nat
  ui8_config_register_pga_mask : Nat
  ui8_config_register_conversion_mode_mask : Nat
  ui8_config_register_conversion_rate_mask : Nat
  ui8_config_register_comparator_mode_mask : Nat
  ui8_config_register_comparator_polarity_mask : Nat
  ui8_config_register_comparator_latch_mask : Nat
  ui8_config_register_comparator_queue_mask : Nat
  ui8arr_write_buffer : Nat × Nat × Nat
  ui8arr_read_buffer : Nat × Nat
  f_resolution : ℚ
  deriving DecidableEq

/-- The initialisers of the file-scope variables of `ads1115.c`. -/
def initial_state : State where
  ui8_pointer_register_mask := POINTER_REGISTER_CONFIG
  ui8_config_register_operation_mask := CONFIG_REGISTER_IDLE
  ui8_config_register_mult_mask := CONFIG_REGISTER_MULT_AIN_0
  ui8_config_register_pga_mask := CONFIG_REGISTER_PGA_4_096
  ui8_config_register_conversion_mode_mask := CONFIG_REGISTER_SINGLE_CONVERSION
  ui8_config_register_conversion_rate_mask := CONFIG_REGISTER_SPS_32
  ui8_config_register_comparator_mode_mask := CONFIG_REGISTER_COMPARATOR_MODE_TRADITIONAL
  ui8_config_register_comparator_polarity_mask := CONFIG_REGISTER_COMPARATOR_POLARITY_LOW
  ui8_config_register_comparator_latch_mask := CONFIG_REGISTER_COMPARATOR_NON_LATCHING
  ui8_config_register_comparator_queue_mask := CONFIG_REGISTER_COMPARATOR_QUEUE_DISABLED
  ui8arr_write_buffer := (0, 0, 0)
  ui8arr_read_buffer := (0, 0)
  f_resolution := PGA_4_096V / 32768

def ADS1115_set_pointer_register (mode : Nat) (s : State) : State :=
  { s with ui8_pointer_register_mask := mode % 256 }

def ADS1115_set_conversion_rate (sps : Nat) (s : State) : State :=
  { s with ui8_config_register_conversion_rate_mask := sps % 256 }

def ADS1115_set_conversion_mode (mode : Nat) (s : State) : State :=
  { s with ui8_config_register_conversion_mode_mask := mode % 256 }

def ADS1115_set_multiplex (mult : Nat) (s : State) : State :=
  { s with ui8_config_register_mult_mask := mult % 256 }

def ADS1115_set_comparator_mode (mode : Nat) (s : State) : State :=
  { s with ui8_config_register_comparator_mode_mask := mode % 256 }

def ADS1115_set_comparator_polarity (polarity : Nat) (s : State) : State :=
  { s with ui8_config_register_comparator_polarity_mask := polarity % 256 }

def ADS1115_set_comparator_latch (latch : Nat) (s : State) : State :=
  { s with ui8_config_register_comparator_latch_mask := latch % 256 }

def ADS1115_set_comparator_queue (queue : Nat) (s : State) : State :=
  { s with ui8_config_register_comparator_queue_mask := queue % 256 }

/-- The `switch` of `ADS1115_set_pga`, with its `default` branch. -/
def ADS1115_set_pga (pga : Nat) (s : State) : State :=
  let f_temp_range : ℚ :=
    if pga = PGA_MASK.PGA_6_144.val then PGA_6_144V
    else if pga = PGA_MASK.PGA_4_096.val then PGA_4_096V
    else if pga = PGA_MASK.PGA_2_048.val then PGA_2_048V
    else if pga = PGA_MASK.PGA_1_024.val then PGA_1_024V
    else if pga = PGA_MASK.PGA_0_512.val then PGA_0_512V
    else if pga = PGA_MASK.PGA_0_256.val then PGA_0_256V
    else PGA_4_096V
  { s with
    f_resolution := f_temp_range / 32768
    ui8_config_register_pga_mask := pga % 256 }

/-- A setter call of `ads1115.c` with an argument of its closed enumeration. -/
inductive Call where
  | set_pointer_register (mode : POINTER_MASK)
  | set_conversion_rate (sps : RATE_MASK)
  | set_conversion_mode (mode : CONVERSION_MODE_MASK)
  | set_multiplex (mult : MULT_MASK)
  | set_comparator_mode (mode : COMPARATOR_MODE_MASK)
  | set_comparator_polarity (polarity : COMPARATOR_POLARITY_MASK)
  | set_comparator_latch (latch : COMPARATOR_LATCH_MASK)
  | set_comparator_queue (queue : COMPARATOR_QUEUE_MASK)
  | set_pga (pga : PGA_MASK)
  deriving DecidableEq, Repr

/-- Effect of one setter call on the module state. -/
def Call.apply : Call → State → State
  | .set_pointer_register mode => ADS1115_set_pointer_register mode.val
  | .set_conversion_rate sps => ADS1115_set_conversion_rate sps.val
  | .set_conversion_mode mode => ADS1115_set_conversion_mode mode.val
  | .set_multiplex mult => ADS1115_set_multiplex mult.val
  | .set_comparator_mode mode => ADS1115_set_comparator_mode mode.val
  | .set_comparator_polarity polarity => ADS1115_set_comparator_polarity polarity.val
  | .set_comparator_latch latch => ADS1115_set_comparator_latch latch.val
  | .set_comparator_queue queue => ADS1115_set_comparator_queue queue.val
  | .set_pga pga => ADS1115_set_pga pga.val

/-- State after a sequence of setter calls, made from left to right. -/
def run (s : State) (calls : List Call) : State :=
  calls.foldl (fun st c => c.apply st) s

/-! ## `ads1115.c`: `ADS1115_get_single_conversion` -/

/-- The write buffer built by lines 136-151 of `ads1115.c`: the pointer byte,
then the two configuration bytes obtained by or-ing the masks into zero. -/
def config_write_buffer (s : State) : Nat × Nat × Nat :=
  let b0 := POINTER_REGISTER_CONFIG
  let b1 := 0
  let b2 := 0
  let b1 := (b1 ||| s.ui8_config_register_operation_mask) % 256
  let b1 := (b1 ||| s.ui8_config_register_mult_mask) % 256
  let b1 := (b1 ||| s.ui8_config_register_pga_mask) % 256
  let b1 := (b1 ||| CONFIG_REGISTER_SINGLE_CONVERSION) % 256
  let b2 := (b2 ||| s.ui8_config_register_conversion_rate_mask) % 256
  let b2 := (b2 ||| s.ui8_config_register_comparator_mode_mask) % 256
  let b2 := (b2 ||| s.ui8_config_register_comparator_polarity_mask) % 256
  let b2 := (b2 ||| s.ui8_config_register_comparator_latch_mask) % 256
  let b2 := (b2 ||| s.ui8_config_register_comparator_queue_mask) % 256
  (b0, b1, b2)

/-- The 16-bit configuration image `byte1 << 8 | byte2` of the write buffer. -/
def config_image (s : State) : Nat :=
  (config_write_buffer s).2.1 <<< 8 ||| (config_write_buffer s).2.2

/-- State of the poll loop when it stops. -/
structure Poll where
  done : Bool
  buffer : Nat × Nat
  trace : List Xfer
  rest : List Resp

/-- The loop `while ((ui8arr_read_buffer[0] & 0x80) == 0) read(...)` of
`ADS1115_get_single_conversion`; `done` is false when the script ends first. -/
def poll_loop (buffer : Nat × Nat) (bus : List Resp) : Poll :=
  match bus with
  | [] =>
    if buffer.1 &&& 0x80 = 0 then ⟨false, buffer, [], []⟩
    else ⟨true, buffer, [], []⟩
  | r :: rest =>
    if buffer.1 &&& 0x80 = 0 then
      let p := poll_loop (read_into buffer r) rest
      { p with trace := Xfer.read 2 r.ret :: p.trace }
    else ⟨true, buffer, [], r :: rest⟩

/-- Lines 176-183 of `ads1115.c`: the 16-bit field streamed from the read
buffer and the sign, after the sign handling (`~x + 1` is computed in `int`
and stored back into the `uint16_t`). -/
def handle_sign (buffer : Nat × Nat) : Nat × Int :=
  let ui16_temp_read_buffer := (buffer.1 <<< 8 ||| buffer.2) % 65536
  let i_temp_sign : Int := 1
  if ui16_temp_read_buffer > 32768 then
    (Int.toNat (((-(ui16_temp_read_buffer : Int) - 1) + 1) % 65536), -1)
  else (ui16_temp_read_buffer, i_temp_sign)

/-- The signed integer that multiplies the resolution: sign times magnitude. -/
def signed_reading (d : Nat × Int) : Int := d.2 * (d.1 : Int)

/-- The function `ADS1115_get_single_conversion`, run against a script of bus
answers.  No return value of `read` or `write` is inspected. -/
def ADS1115_get_single_conversion (s : State) (bus : List Resp) : Outcome State :=
  let wb := config_write_buffer s
  let s1 := { s with ui8arr_write_buffer := wb, ui8arr_read_buffer := (0, 0) }
  match bus with
  | [] => ⟨none, s1, [], []⟩
  | w1 :: bus1 =>
    let t1 := [Xfer.write [wb.1, wb.2.1, wb.2.2] w1.ret]
    let p := poll_loop (0, 0) bus1
    let s2 := { s1 with ui8arr_read_buffer := p.buffer }
    if p.done = false then ⟨none, s2, t1 ++ p.trace, p.rest⟩
    else
      let s3 := { s2 with ui8arr_write_buffer := (0, wb.2.1, wb.2.2) }
      match p.rest with
      | [] => ⟨none, s3, t1 ++ p.trace, []⟩
      | w2 :: bus2 =>
        let t2 := t1 ++ p.trace ++ [Xfer.write [0, wb.2.1, wb.2.2] w2.ret]
        match bus2 with
        | [] => ⟨none, s3, t2, []⟩
        | r :: bus3 =>
          let buffer := read_into p.buffer r
          let d := handle_sign buffer
          let d_temp_conversion : ℚ := (d.1 : ℚ) * s.f_resolution * (d.2 : ℚ)
          ⟨some d_temp_conversion, { s3 with ui8arr_read_buffer := buffer },
            t2 ++ [Xfer.read 2 r.ret], bus3⟩

/-- The setter calls that install one full tuple of settings. -/
def install (mult : MULT_MASK) (pga : PGA_MASK) (sps : RATE_MASK)
    (mode : COMPARATOR_MODE_MASK) (polarity : COMPARATOR_POLARITY_MASK)
    (latch : COMPARATOR_LATCH_MASK) (queue : COMPARATOR_QUEUE_MASK) : List Call :=
  [.set_multiplex mult, .set_pga pga, .set_conversion_rate sps, .set_comparator_mode mode,
    .set_comparator_polarity polarity, .set_comparator_latch latch, .set_comparator_queue queue]

/-- What holds of the module state after setter calls with members of the
closed enumerations: the operation mask is still `CONFIG_REGISTER_IDLE`, every
other configuration mask carries a member of its enumeration, and the cached
resolution is the one of the stored gain. -/
def Settled (s : State) : Prop :=
  s.ui8_config_register_operation_mask = CONFIG_REGISTER_IDLE ∧
  (∃ m : MULT_MASK, s.ui8_config_register_mult_mask = m.val) ∧
  (∃ g : PGA_MASK, s.ui8_config_register_pga_mask = g.val ∧
    s.f_resolution = full_scale_volts g.code / 32768) ∧
  (∃ r : RATE_MASK, s.ui8_config_register_conversion_rate_mask = r.val) ∧
  (∃ c : COMPARATOR_MODE_MASK, s.ui8_config_register_comparator_mode_mask = c.val) ∧
  (∃ p : COMPARATOR_POLARITY_MASK, s.ui8_config_register_comparator_polarity_mask = p.val) ∧
  (∃ l : COMPARATOR_LATCH_MASK, s.ui8_config_register_comparator_latch_mask = l.val) ∧
  (∃ q : COMPARATOR_QUEUE_MASK, s.ui8_config_register_comparator_queue_mask = q.val)

/-! ## `ads1115.c`: averaging and initialisation -/

/-- The function `ADS1115_get_average_conversions`: the loop runs for
`c = 0, ..., count - 1`, then `d_temp_sum` is divided by `count`. -/
def ADS1115_get_average_conversions (count : Int) (s : State) (bus : List Resp) :
    Averaged State :=
  let d_temp_sum : ℚ := 0
  { sum_loop ADS1115_get_single_conversion count.toNat s bus d_temp_sum with count := count }

def ADDRESS_SDA : Nat := 0b1001010
def ADDRESS_SCL : Nat := 0b1001011
def ADDRESS_GND : Nat := 0b1001000
def ADDRESS_VDD : Nat := 0b1001001

/-- The validation steps of `ADS1115_init`: the bus id `open` is called with
and the address `ioctl` binds.  The parameter `addr` has the type
`enum ADS1115_ADDRESS`, none of whose enumerators is negative, so the object is
an `unsigned int`: an `int` argument is converted modulo `2^32` at the call, and
the two comparisons are made on that unsigned value. -/
def ADS1115_init (id : Int) (addr : Int) : Binding :=
  let addr : Nat := (addr % 4294967296).toNat
  let addr := if addr < 0x48 then ADDRESS_GND else addr
  let addr := if addr > 0x4B then ADDRESS_SCL else addr
  let id := if id < 0 then 0 else id
  let id := if id > 255 then 255 else id
  ⟨id, (addr : Int)⟩

/-! ## `ads1115.c`: the conversion in binary floating point

The definitions above take every `float` and `double` product exactly.  The
ones of this section round as the C objects do: `f_temp_range` and
`f_resolution` are `float` objects (IEEE 754 binary32), the constants
`PGA_4_096V`, ... and `32768.0` are `double` constants (binary64), and the
operands of `ui16_temp_read_buffer * f_resolution * i_temp_sign` are converted
to `float`, so that both products are binary32 products. -/

/-- The integer nearest to `x`, the even one of the two when `x` lies half way. -/
def round_half_even (x : ℚ) : Int :=
  let f := ⌊x⌋
  if x - f < 1 / 2 then f
  else if 1 / 2 < x - f then f + 1
  else if f % 2 = 0 then f else f + 1

/-- Round to nearest, ties to even, to a significand of `p` bits; the exponent
is not bounded (no value of the driver is subnormal or overflows). -/
def round_binary (p : Nat) (q : ℚ) : ℚ :=
  if q = 0 then 0
  else
    let e : Int := Int.log 2 |q|
    let ulp : ℚ := (2 : ℚ) ^ (e - ((p : Int) - 1))
    (round_half_even (q / ulp) : ℚ) * ulp

/-- The value a `float` object holds after a store of `q`. -/
def binary32 (q : ℚ) : ℚ := round_binary 24 q

/-- The value a `double` object or constant holds for `q`. -/
def binary64 (q : ℚ) : ℚ := round_binary 53 q

/-- The function `ADS1115_set_pga` with the rounding of its two `float` stores:
`f_temp_range = PGA_...V` converts a `double` constant to `float`, and
`f_resolution = (f_temp_range / 32768.0)` divides in `double` and stores the
quotient into a `float`. -/
def ADS1115_set_pga_float (pga : Nat) (s : State) : State :=
  let f_temp_range : ℚ :=
    if pga = PGA_MASK.PGA_6_144.val then binary32 (binary64 PGA_6_144V)
    else if pga = PGA_MASK.PGA_4_096.val then binary32 (binary64 PGA_4_096V)
    else if pga = PGA_MASK.PGA_2_048.val then binary32 (binary64 PGA_2_048V)
    else if pga = PGA_MASK.PGA_1_024.val then binary32 (binary64 PGA_1_024V)
    else if pga = PGA_MASK.PGA_0_512.val then binary32 (binary64 PGA_0_512V)
    else if pga = PGA_MASK.PGA_0_256.val then binary32 (binary64 PGA_0_256V)
    else binary32 (binary64 PGA_4_096V)
  { s with
    f_resolution := binary32 (binary64 (f_temp_range / 32768))
    ui8_config_register_pga_mask := pga % 256 }

/-- Line 185 of `ads1115.c`,
`d_temp_conversion = (ui16_temp_read_buffer * f_resolution * i_temp_sign)`:
the magnitude (below `2^24`) and the sign convert to `float` exactly, and each
of the two products is rounded to binary32; the conversion of the result to
`double` is exact. -/
def d_temp_conversion_float (d : Nat × Int) (f_resolution : ℚ) : ℚ :=
  binary32 (binary32 ((d.1 : ℚ) * f_resolution) * (d.2 : ℚ))

/-- The function `ADS1115_get_single_conversion` with the rounding of line 185:
the bus calls and the buffers are those of `ADS1115_get_single_conversion`, the
value returned is the binary32 product. -/
def ADS1115_get_single_conversion_float (s : State) (bus : List Resp) : Outcome State :=
  let o := ADS1115_get_single_conversion s bus
  { o with
    value := o.value.map fun _ =>
      d_temp_conversion_float (handle_sign o.state.ui8arr_read_buffer) s.f_resolution }

end ADS1115

namespace LibADS1115

open ADS1115 (Resp Xfer Outcome read_into signed_reading)

/-! ## `libads1115.c`: module state and `readVolts_1115` -/

/-- The file-scope variables of `libads1115.c`. -/
structure State where
  outBuf : Nat × Nat × Nat
  inBuf : Nat × Nat
  adcRes : ℚ
  devADC : Int
  chanMask : Nat
  rateMask : Nat
  multMask : Nat
  deriving DecidableEq

/-- The initialisers of the file-scope variables of `libads1115.c`. -/
def initial_state : State where
  outBuf := (0, 0, 0)
  inBuf := (0, 0)
  adcRes := 0
  devADC := 0
  chanMask := 0b01000000
  rateMask := 0b00000000
  multMask := 0b00000010

/-- The output buffer built by lines 173-181 of `libads1115.c`. -/
def config_outBuf (s : State) : Nat × Nat × Nat :=
  let b0 := 0b00000001
  let b1 := 0b10000001
  let b2 := 0b00000011
  let b1 := (b1 ||| (s.chanMask ||| s.multMask)) % 256
  let b2 := (b2 ||| s.rateMask) % 256
  (b0, b1, b2)

/-- How the wait for the done bit ends. -/
inductive PollStatus where
  | ready
  | fault
  | blocked
  deriving DecidableEq, Repr

/-- State of the wait for the done bit when it stops. -/
structure Poll where
  status : PollStatus
  inBuf : Nat × Nat
  trace : List Xfer
  rest : List Resp

/-- The loop `do { if (read(...) != 2) return -10.0; } while ((inBuf[0] &
0b10000000) == 0)` of `readVolts_1115`; `blocked` when the script ends first. -/
def poll_1115 (inBuf : Nat × Nat) (bus : List Resp) : Poll :=
  match bus with
  | [] => ⟨.blocked, inBuf, [], []⟩
  | r :: rest =>
    let inBuf1 := read_into inBuf r
    if r.ret ≠ 2 then ⟨.fault, inBuf1, [Xfer.read 2 r.ret], rest⟩
    else if inBuf1.1 &&& 0b10000000 = 0 then
      let p := poll_1115 inBuf1 rest
      { p with trace := Xfer.read 2 r.ret :: p.trace }
    else ⟨.ready, inBuf1, [Xfer.read 2 r.ret], rest⟩

/-- Lines 208-213 of `libads1115.c`: `retcode` and `sign` after the two's
complement conversion (`~retcode + 1` is computed in `int` and stored back
into the `uint16_t`). -/
def twos_complement (inBuf : Nat × Nat) : Nat × Int :=
  let retcode := (inBuf.1 <<< 8 ||| inBuf.2) % 65536
  let sign : Int := 1
  if retcode ≥ 32768 then
    (Int.toNat (((-(retcode : Int) - 1) + 1) % 65536), -1)
  else (retcode, sign)

/-- The function `readVolts_1115`, run against a script of bus answers. -/
def readVolts_1115 (s : State) (bus : List Resp) : Outcome State :=
  let ob := config_outBuf s
  let s1 := { s with outBuf := ob }
  match bus with
  | [] => ⟨none, s1, [], []⟩
  | w1 :: bus1 =>
    let t1 := [Xfer.write [ob.1, ob.2.1, ob.2.2] w1.ret]
    if w1.ret ≠ 3 then ⟨some (-10), s1, t1, bus1⟩
    else
      let p := poll_1115 s.inBuf bus1
      let s2 := { s1 with inBuf := p.inBuf }
      match p.status with
      | .blocked => ⟨none, s2, t1 ++ p.trace, p.rest⟩
      | .fault => ⟨some (-10), s2, t1 ++ p.trace, p.rest⟩
      | .ready =>
        let s3 := { s2 with outBuf := (0, ob.2.1, ob.2.2) }
        match p.rest with
        | [] => ⟨none, s3, t1 ++ p.trace, []⟩
        | w2 :: bus2 =>
          let t2 := t1 ++ p.trace ++ [Xfer.write [0] w2.ret]
          if w2.ret ≠ 1 then ⟨some (-10), s3, t2, bus2⟩
          else
            match bus2 with
            | [] => ⟨none, s3, t2, []⟩
            | r :: bus3 =>
              let inBuf := read_into p.inBuf r
              let s4 := { s3 with inBuf := inBuf }
              let t3 := t2 ++ [Xfer.read 2 r.ret]
              if r.ret ≠ 2 then ⟨some (-10), s4, t3, bus3⟩
              else
                let d := twos_complement inBuf
                let volts : ℚ := (d.1 : ℚ) * s.adcRes * (d.2 : ℚ)
                ⟨some volts, s4, t3, bus3⟩

/-! ## `libads1115.c`: `init_1115` and `setPGA_1115` -/

/-- The clipping steps of `init_1115`: the bus id `open` is called with and the
address `ioctl` binds. -/
def init_1115 (devID : Int) (address : Int) : ADS1115.Binding :=
  let address := if address < 0x48 then 0x48 else address
  let address := if address > 0x4B then 0x4B else address
  let devID := if devID < 0 then 0 else devID
  let devID := if devID > 255 then 255 else devID
  ⟨devID, address⟩

/-- Modelled from the spec: the enumeration `configPGA_1115` of `libads1115.h`,
a header that is not among the sources.  Its members are the six case labels of
`setPGA_1115`, the six gain ranges of the spec. -/
inductive configPGA_1115 where
  | PGA6_144
  | PGA4_096
  | PGA2_048
  | PGA1_024
  | PGA0_512
  | PGA0_256
  deriving DecidableEq, Repr

/-- The function `setPGA_1115`: the `switch` stores the mask and picks the
range, then the resolution is `range / 32768.0`. -/
def setPGA_1115 (pga : configPGA_1115) (s : State) : State :=
  let choice : Nat × ℚ :=
    match pga with
    | .PGA6_144 => (0b00000000, 6.144)
    | .PGA4_096 => (0b00000010, 4.096)
    | .PGA2_048 => (0b00000100, 2.048)
    | .PGA1_024 => (0b00000110, 1.024)
    | .PGA0_512 => (0b00001000, 0.512)
    | .PGA0_256 => (0b00001010, 0.256)
  let range : ℚ := choice.2
  { s with multMask := choice.1, adcRes := range / 32768 }

/-! ## `libads1115.c`: `setCH_1115`, `setSPS_1115` and `avgReads` -/

/-- The function `setCH_1115`: the `default` label comes first in the `switch`
and falls through into `case 0`, so every channel other than 1, 2 and 3 stores
the mask of channel 0. -/
def setCH_1115 (channel : Int) (s : State) : State :=
  if channel = 1 then { s with chanMask := 0b01010000 }
  else if channel = 2 then { s with chanMask := 0b01100000 }
  else if channel = 3 then { s with chanMask := 0b01110000 }
  else { s with chanMask := 0b01000000 }

/-- Modelled from the spec: the enumeration `convRate_1115` of `libads1115.h`,
a header that is not among the sources.  Its members are the eight case labels
of `setSPS_1115`, the eight sample rates of the spec. -/
inductive convRate_1115 where
  | SPS8
  | SPS16
  | SPS32
  | SPS64
  | SPS128
  | SPS250
  | SPS475
  | SPS860
  deriving DecidableEq, Repr

/-- The effect of `setSPS_1115` on the module state.  The function also returns
`(int)rate`, the integer of the enumeration member, which the missing header
fixes and which is not modelled. -/
def setSPS_1115 (rate : convRate_1115) (s : State) : State :=
  match rate with
  | .SPS8 => { s with rateMask := 0b00000000 }
  | .SPS16 => { s with rateMask := 0b00100000 }
  | .SPS32 => { s with rateMask := 0b01000000 }
  | .SPS64 => { s with rateMask := 0b01100000 }
  | .SPS128 => { s with rateMask := 0b10000000 }
  | .SPS250 => { s with rateMask := 0b10100000 }
  | .SPS475 => { s with rateMask := 0b11000000 }
  | .SPS860 => { s with rateMask := 0b11100000 }

/-- The function `avgReads`: the loop runs for `x = 0, ..., numReads - 1`, then
`avg` is divided by `numReads`. -/
def avgReads (numReads : Int) (s : State) (bus : List Resp) : ADS1115.Averaged State :=
  let avg : ℚ := 0
  { ADS1115.sum_loop readVolts_1115 numReads.toNat s bus avg with count := numReads }

/-! ## Correspondence of the settings of the two drivers -/

/-- The member of `enum PGA_MASK` for the same gain range. -/
def configPGA_1115.toPGA_MASK : configPGA_1115 → ADS1115.PGA_MASK
  | .PGA6_144 => .PGA_6_144
  | .PGA4_096 => .PGA_4_096
  | .PGA2_048 => .PGA_2_048
  | .PGA1_024 => .PGA_1_024
  | .PGA0_512 => .PGA_0_512
  | .PGA0_256 => .PGA_0_256

/-- The member of `enum RATE_MASK` for the same sample rate. -/
def convRate_1115.toRATE_MASK : convRate_1115 → ADS1115.RATE_MASK
  | .SPS8 => .SPS_8
  | .SPS16 => .SPS_16
  | .SPS32 => .SPS_32
  | .SPS64 => .SPS_64
  | .SPS128 => .SPS_128
  | .SPS250 => .SPS_250
  | .SPS475 => .SPS_475
  | .SPS860 => .SPS_860

/-- The member `MULT_AIN_c` of `enum MULT_MASK` for the single-ended channel
`c` in `0..3`. -/
def MULT_AIN (c : Fin 4) : ADS1115.MULT_MASK :=
  match c with
  | 0 => .MULT_AIN_0
  | 1 => .MULT_AIN_1
  | 2 => .MULT_AIN_2
  | 3 => .MULT_AIN_3

end LibADS1115

/-! ## Theorems -/

namespace ADS1115

/-! ### Reachable states -/

theorem run_nil (s : State) : run s [] = s := rfl

theorem run_cons (s : State) (c : Call) (cs : List Call) :
    run s (c :: cs) = run (c.apply s) cs := rfl

theorem run_append (s : State) (cs ds : List Call) :
    run s (cs ++ ds) = run (run s cs) ds := by
  simp [run, List.foldl_append]

theorem settled_initial_state : Settled initial_state := by
  refine ⟨rfl, ⟨.MULT_AIN_0, rfl⟩, ⟨.PGA_4_096, rfl, ?_⟩, ⟨.SPS_32, rfl⟩, ⟨.TRADITIONAL, rfl⟩,
    ⟨.LOW, rfl⟩, ⟨.NON_LATCHING, rfl⟩, ⟨.QUEUE_DISABLED, rfl⟩⟩
  simp [initial_state, PGA_4_096V, full_scale_volts, PGA_MASK.code]

/-- The resolution cached by `ADS1115_set_pga` for a member of `enum PGA_MASK`. -/
theorem set_pga_resolution (g : PGA_MASK) (s : State) :
    (ADS1115_set_pga g.val s).f_resolution = full_scale_volts g.code / 32768 := by
  cases g <;>
    simp [ADS1115_set_pga, PGA_MASK.val, PGA_MASK.code, full_scale_volts,
      CONFIG_REGISTER_PGA_6_144, CONFIG_REGISTER_PGA_4_096, CONFIG_REGISTER_PGA_2_048,
      CONFIG_REGISTER_PGA_1_024, CONFIG_REGISTER_PGA_0_512, CONFIG_REGISTER_PGA_0_256,
      PGA_6_144V, PGA_4_096V, PGA_2_048V, PGA_1_024V, PGA_0_512V, PGA_0_256V]

theorem settled_apply (c : Call) (s : State) (h : Settled s) : Settled (c.apply s) := by
  obtain ⟨hop, hm, ⟨g, hg, hres⟩, hr, hc, hp, hl, hq⟩ := h
  cases c with
  | set_pointer_register mode => exact ⟨hop, hm, ⟨g, hg, hres⟩, hr, hc, hp, hl, hq⟩
  | set_conversion_rate sps =>
    exact ⟨hop, hm, ⟨g, hg, hres⟩, ⟨sps, by cases sps <;> rfl⟩, hc, hp, hl, hq⟩
  | set_conversion_mode mode => exact ⟨hop, hm, ⟨g, hg, hres⟩, hr, hc, hp, hl, hq⟩
  | set_multiplex mult =>
    exact ⟨hop, ⟨mult, by cases mult <;> rfl⟩, ⟨g, hg, hres⟩, hr, hc, hp, hl, hq⟩
  | set_comparator_mode mode =>
    exact ⟨hop, hm, ⟨g, hg, hres⟩, hr, ⟨mode, by cases mode <;> rfl⟩, hp, hl, hq⟩
  | set_comparator_polarity polarity =>
    exact ⟨hop, hm, ⟨g, hg, hres⟩, hr, hc, ⟨polarity, by cases polarity <;> rfl⟩, hl, hq⟩
  | set_comparator_latch latch =>
    exact ⟨hop, hm, ⟨g, hg, hres⟩, hr, hc, hp, ⟨latch, by cases latch <;> rfl⟩, hq⟩
  | set_comparator_queue queue =>
    exact ⟨hop, hm, ⟨g, hg, hres⟩, hr, hc, hp, hl, ⟨queue, by cases queue <;> rfl⟩⟩
  | set_pga pga =>
    exact ⟨hop, hm, ⟨pga, by cases pga <;> rfl, set_pga_resolution pga s⟩, hr, hc, hp, hl, hq⟩

theorem settled_run (calls : List Call) (s : State) (h : Settled s) : Settled (run s calls) := by
  induction calls generalizing s with
  | nil => exact h
  | cons c cs ih => exact ih (c.apply s) (settled_apply c s h)

/-! ### Decoding the conversion register -/

/-- The two buffer bytes combine into `hi * 256 + lo`. -/
theorem stream_bytes (hi lo : Nat) (hhi : hi < 256) (hlo : lo < 256) :
    (hi <<< 8 ||| lo) % 65536 = hi * 256 + lo := by
  have h : 2 ^ 8 * hi + lo = 2 ^ 8 * hi ||| lo := Nat.mul_add_lt_is_or (by omega) hi
  rw [Nat.shiftLeft_eq, Nat.mul_comm hi, ← h]
  omega

/-- What the sign handling of `ADS1115_get_single_conversion` computes: the
16-bit value is negated only when it is strictly above 32768. -/
theorem handle_sign_value (hi lo : Nat) (hhi : hi < 256) (hlo : lo < 256) :
    signed_reading (handle_sign (hi, lo)) =
      if hi * 256 + lo ≤ 32768 then ((hi * 256 + lo : Nat) : Int)
      else ((hi * 256 + lo : Nat) : Int) - 65536 := by
  unfold signed_reading handle_sign
  simp only [stream_bytes hi lo hhi hlo]
  split_ifs <;> simp <;> omega

/-- C1 (evaluation at the failing input).  With result bytes `0x80, 0x00`, that
is `v = 32768`, the sign handling of `ADS1115_get_single_conversion` leaves the
value positive: the signed integer that multiplies the resolution is `32768`,
not `-32768`, and with the initial ±4.096 V range the conversion returns
`+4.096` volts. -/
theorem handle_sign_at_32768 :
    signed_reading (handle_sign (0x80, 0x00)) = 32768 ∧
    signed_reading (handle_sign (0x80, 0x00)) ≠ (0x80 * 256 + 0x00 : Int) - 65536 ∧
    (ADS1115_get_single_conversion initial_state
      [⟨3, 0, 0⟩, ⟨2, 0x80, 0⟩, ⟨3, 0, 0⟩, ⟨2, 0x80, 0x00⟩]).value = some 4.096 := by
  refine ⟨by decide, by decide, ?_⟩
  simp [ADS1115_get_single_conversion, poll_loop, read_into, handle_sign, initial_state,
    PGA_4_096V]
  norm_num

/-- C2.  In `readVolts_1115`, for result bytes `hi, lo` with
`v = hi * 256 + lo`, the signed integer that multiplies `adcRes` (sign times
`retcode` after the negate-and-truncate step) is `v` when `v < 32768` and
`v - 65536` otherwise: the 16-bit two's-complement sign extension of `v`. -/
theorem twos_complement_sign_extension (hi lo : Nat) (hhi : hi < 256) (hlo : lo < 256) :
    signed_reading (LibADS1115.twos_complement (hi, lo)) =
      if hi * 256 + lo < 32768 then ((hi * 256 + lo : Nat) : Int)
      else ((hi * 256 + lo : Nat) : Int) - 65536 := by
  unfold signed_reading LibADS1115.twos_complement
  simp only [stream_bytes hi lo hhi hlo]
  split_ifs <;> simp <;> omega

/-- Witness for C2 at the boundary bytes `0x80, 0x00`. -/
theorem twos_complement_sign_extension_witness :
    signed_reading (LibADS1115.twos_complement (0x80, 0x00)) = -32768 :=
  twos_complement_sign_extension 0x80 0x00 (by decide) (by decide)

/-! ### The configuration image -/

/-- High configuration byte in terms of the register codes. -/
theorem config_high_byte (s : State) (m : MULT_MASK) (g : PGA_MASK)
    (hop : s.ui8_config_register_operation_mask = CONFIG_REGISTER_IDLE)
    (hm : s.ui8_config_register_mult_mask = m.val)
    (hg : s.ui8_config_register_pga_mask = g.val) :
    (config_write_buffer s).2.1 = 128 + 16 * m.code + 2 * g.code + 1 := by
  simp only [config_write_buffer, hop, hm, hg]
  cases m <;> cases g <;> rfl

/-- Low configuration byte in terms of the register codes. -/
theorem config_low_byte (s : State) (r : RATE_MASK) (c : COMPARATOR_MODE_MASK)
    (p : COMPARATOR_POLARITY_MASK) (l : COMPARATOR_LATCH_MASK) (q : COMPARATOR_QUEUE_MASK)
    (hr : s.ui8_config_register_conversion_rate_mask = r.val)
    (hc : s.ui8_config_register_comparator_mode_mask = c.val)
    (hp : s.ui8_config_register_comparator_polarity_mask = p.val)
    (hl : s.ui8_config_register_comparator_latch_mask = l.val)
    (hq : s.ui8_config_register_comparator_queue_mask = q.val) :
    (config_write_buffer s).2.2 = 32 * r.code + 16 * c.code + 8 * p.code + 4 * l.code + q.code := by
  simp only [config_write_buffer, hr, hc, hp, hl, hq]
  cases r <;> cases c <;> cases p <;> cases l <;> cases q <;> rfl

theorem mult_code_lt (m : MULT_MASK) : m.code < 8 := by cases m <;> decide
theorem pga_code_lt (g : PGA_MASK) : g.code < 6 := by cases g <;> decide
theorem rate_code_lt (r : RATE_MASK) : r.code < 8 := by cases r <;> decide
theorem comparator_mode_code_lt (c : COMPARATOR_MODE_MASK) : c.code < 2 := by
  cases c <;> decide
theorem comparator_polarity_code_lt (p : COMPARATOR_POLARITY_MASK) : p.code < 2 := by
  cases p <;> decide
theorem comparator_latch_code_lt (l : COMPARATOR_LATCH_MASK) : l.code < 2 := by
  cases l <;> decide
theorem comparator_queue_code_lt (q : COMPARATOR_QUEUE_MASK) : q.code < 4 := by
  cases q <;> decide

theorem mult_code_inj (a b : MULT_MASK) (h : a.code = b.code) : a = b := by
  cases a <;> cases b <;> first | rfl | exact absurd h (by decide)
theorem pga_code_inj (a b : PGA_MASK) (h : a.code = b.code) : a = b := by
  cases a <;> cases b <;> first | rfl | exact absurd h (by decide)
theorem rate_code_inj (a b : RATE_MASK) (h : a.code = b.code) : a = b := by
  cases a <;> cases b <;> first | rfl | exact absurd h (by decide)
theorem comparator_mode_code_inj (a b : COMPARATOR_MODE_MASK) (h : a.code = b.code) :
    a = b := by
  cases a <;> cases b <;> first | rfl | exact absurd h (by decide)
theorem comparator_polarity_code_inj (a b : COMPARATOR_POLARITY_MASK)
    (h : a.code = b.code) : a = b := by
  cases a <;> cases b <;> first | rfl | exact absurd h (by decide)
theorem comparator_latch_code_inj (a b : COMPARATOR_LATCH_MASK) (h : a.code = b.code) :
    a = b := by
  cases a <;> cases b <;> first | rfl | exact absurd h (by decide)
theorem comparator_queue_code_inj (a b : COMPARATOR_QUEUE_MASK) (h : a.code = b.code) :
    a = b := by
  cases a <;> cases b <;> first | rfl | exact absurd h (by decide)

/-- The masks held by the state once a full tuple of settings is installed. -/
theorem install_masks (s : State) (m : MULT_MASK) (g : PGA_MASK) (r : RATE_MASK)
    (c : COMPARATOR_MODE_MASK) (p : COMPARATOR_POLARITY_MASK) (l : COMPARATOR_LATCH_MASK)
    (q : COMPARATOR_QUEUE_MASK) :
    let t := run s (install m g r c p l q)
    t.ui8_config_register_operation_mask = s.ui8_config_register_operation_mask ∧
    t.ui8_config_register_mult_mask = m.val ∧
    t.ui8_config_register_pga_mask = g.val ∧
    t.ui8_config_register_conversion_rate_mask = r.val ∧
    t.ui8_config_register_comparator_mode_mask = c.val ∧
    t.ui8_config_register_comparator_polarity_mask = p.val ∧
    t.ui8_config_register_comparator_latch_mask = l.val ∧
    t.ui8_config_register_comparator_queue_mask = q.val := by
  refine ⟨rfl, ?_, ?_, ?_, ?_, ?_, ?_, ?_⟩
  · cases m <;> rfl
  · cases g <;> rfl
  · cases r <;> rfl
  · cases c <;> rfl
  · cases p <;> rfl
  · cases l <;> rfl
  · cases q <;> rfl

/-- The configuration image of a state whose masks carry given enumeration
members, as a sum of shifted register codes. -/
theorem config_image_sum (s : State) (m : MULT_MASK) (g : PGA_MASK) (r : RATE_MASK)
    (c : COMPARATOR_MODE_MASK) (p : COMPARATOR_POLARITY_MASK) (l : COMPARATOR_LATCH_MASK)
    (q : COMPARATOR_QUEUE_MASK)
    (hop : s.ui8_config_register_operation_mask = CONFIG_REGISTER_IDLE)
    (hm : s.ui8_config_register_mult_mask = m.val)
    (hg : s.ui8_config_register_pga_mask = g.val)
    (hr : s.ui8_config_register_conversion_rate_mask = r.val)
    (hc : s.ui8_config_register_comparator_mode_mask = c.val)
    (hp : s.ui8_config_register_comparator_polarity_mask = p.val)
    (hl : s.ui8_config_register_comparator_latch_mask = l.val)
    (hq : s.ui8_config_register_comparator_queue_mask = q.val) :
    config_image s = 32768 + 4096 * m.code + 512 * g.code + 256 + 32 * r.code + 16 * c.code
      + 8 * p.code + 4 * l.code + q.code := by
  have h1 := config_high_byte s m g hop hm hg
  have h2 := config_low_byte s r c p l q hr hc hp hl hq
  have := mult_code_lt m
  have := pga_code_lt g
  have := rate_code_lt r
  have := comparator_mode_code_lt c
  have := comparator_polarity_code_lt p
  have := comparator_latch_code_lt l
  have := comparator_queue_code_lt q
  have h3 := stream_bytes (config_write_buffer s).2.1 (config_write_buffer s).2.2
    (by omega) (by omega)
  have h4 : config_image s < 65536 := by
    unfold config_image
    apply Nat.or_lt_two_pow (n := 16)
    · rw [Nat.shiftLeft_eq]; omega
    · omega
  have h5 : config_image s % 65536 = config_image s := Nat.mod_eq_of_lt h4
  unfold config_image at h5 ⊢
  omega

/-- C3.  After any setter calls, once a tuple of settings of the closed
enumerations is installed through the setters, the 16-bit configuration image
`byte1 << 8 | byte2` built by `ADS1115_get_single_conversion` carries the
operation-status bit in bit 15, the multiplexer code in bits 14:12, the gain
code in bits 11:9, a one in bit 8, the sample-rate code in bits 7:5, the
comparator mode in bit 4, the polarity in bit 3, the latch in bit 2 and the
queue code in bits 1:0; and two different tuples never give the same image. -/
theorem config_image_fields (calls : List Call) (m : MULT_MASK) (g : PGA_MASK) (r : RATE_MASK)
    (c : COMPARATOR_MODE_MASK) (p : COMPARATOR_POLARITY_MASK) (l : COMPARATOR_LATCH_MASK)
    (q : COMPARATOR_QUEUE_MASK) :
    let s := run (run initial_state calls) (install m g r c p l q)
    let w := config_image s
    (w >>> 15) &&& 1 = s.ui8_config_register_operation_mask >>> 7 ∧
    (w >>> 12) &&& 7 = m.code ∧
    (w >>> 9) &&& 7 = g.code ∧
    (w >>> 8) &&& 1 = 1 ∧
    (w >>> 5) &&& 7 = r.code ∧
    (w >>> 4) &&& 1 = c.code ∧
    (w >>> 3) &&& 1 = p.code ∧
    (w >>> 2) &&& 1 = l.code ∧
    w &&& 3 = q.code ∧
    ∀ (m2 : MULT_MASK) (g2 : PGA_MASK) (r2 : RATE_MASK) (c2 : COMPARATOR_MODE_MASK)
      (p2 : COMPARATOR_POLARITY_MASK) (l2 : COMPARATOR_LATCH_MASK) (q2 : COMPARATOR_QUEUE_MASK),
      config_image (run (run initial_state calls) (install m2 g2 r2 c2 p2 l2 q2)) = w →
      m2 = m ∧ g2 = g ∧ r2 = r ∧ c2 = c ∧ p2 = p ∧ l2 = l ∧ q2 = q := by
  intro s w
  have hop0 : (run initial_state calls).ui8_config_register_operation_mask =
      CONFIG_REGISTER_IDLE :=
    (settled_run calls initial_state settled_initial_state).1
  obtain ⟨hop, hm, hg, hr, hc, hp, hl, hq⟩ :=
    install_masks (run initial_state calls) m g r c p l q
  have hw : w = _ := config_image_sum s m g r c p l q (hop.trans hop0) hm hg hr hc hp hl hq
  have hops : s.ui8_config_register_operation_mask >>> 7 = 1 := by
    rw [hop.trans hop0]; rfl
  have b1 := mult_code_lt m
  have b2 := pga_code_lt g
  have b3 := rate_code_lt r
  have b4 := comparator_mode_code_lt c
  have b5 := comparator_polarity_code_lt p
  have b6 := comparator_latch_code_lt l
  have b7 := comparator_queue_code_lt q
  have e1 : ∀ x : Nat, x &&& 1 = x % 2 := fun x => Nat.and_pow_two_sub_one_eq_mod x 1
  have e3 : ∀ x : Nat, x &&& 3 = x % 4 := fun x => Nat.and_pow_two_sub_one_eq_mod x 2
  have e7 : ∀ x : Nat, x &&& 7 = x % 8 := fun x => Nat.and_pow_two_sub_one_eq_mod x 3
  simp only [hops, e1, e3, e7, Nat.shiftRight_eq_div_pow]
  refine ⟨by omega, by omega, by omega, by omega, by omega, by omega, by omega, by omega,
    by omega, ?_⟩
  intro m2 g2 r2 c2 p2 l2 q2 h
  obtain ⟨hop', hm', hg', hr', hc', hp', hl', hq'⟩ :=
    install_masks (run initial_state calls) m2 g2 r2 c2 p2 l2 q2
  rw [config_image_sum _ m2 g2 r2 c2 p2 l2 q2 (hop'.trans hop0) hm' hg' hr' hc' hp' hl' hq'] at h
  have d1 := mult_code_lt m2
  have d2 := pga_code_lt g2
  have d3 := rate_code_lt r2
  have d4 := comparator_mode_code_lt c2
  have d5 := comparator_polarity_code_lt p2
  have d6 := comparator_latch_code_lt l2
  have d7 := comparator_queue_code_lt q2
  exact ⟨mult_code_inj _ _ (by omega), pga_code_inj _ _ (by omega),
    rate_code_inj _ _ (by omega), comparator_mode_code_inj _ _ (by omega),
    comparator_polarity_code_inj _ _ (by omega),
    comparator_latch_code_inj _ _ (by omega),
    comparator_queue_code_inj _ _ (by omega)⟩

/-! ### The conversion mode -/

/-- Bit 0 of the high configuration byte is set in every state. -/
theorem config_mode_bit (s : State) : (config_write_buffer s).2.1 &&& 1 = 1 := by
  have e1 : ∀ x : Nat, x &&& 1 = x % 2 := fun x => Nat.and_pow_two_sub_one_eq_mod x 1
  have h : ∀ y : Nat, (y ||| 1) % 2 = 1 := by
    intro y
    have h1 : (y ||| 1).testBit 0 = true := by rw [Nat.testBit_or]; simp
    rw [Nat.testBit_zero] at h1
    exact of_decide_eq_true h1
  simp only [config_write_buffer, CONFIG_REGISTER_SINGLE_CONVERSION, e1]
  have := h ((((0 ||| s.ui8_config_register_operation_mask) % 256 |||
    s.ui8_config_register_mult_mask) % 256 ||| s.ui8_config_register_pga_mask) % 256)
  omega

/-- A recorded conversion mode is carried along by every later setter call and
changes nothing else. -/
theorem run_mode_irrelevant (after : List Call) (s : State) (x : Nat) :
    ∃ y, run { s with ui8_config_register_conversion_mode_mask := x } after =
      { run s after with ui8_config_register_conversion_mode_mask := y } := by
  induction after generalizing s x with
  | nil => exact ⟨x, rfl⟩
  | cons c cs ih =>
    cases c with
    | set_conversion_mode mode => exact ⟨_, rfl⟩
    | set_pointer_register mode => exact ih (Call.apply (.set_pointer_register mode) s) x
    | set_conversion_rate sps => exact ih (Call.apply (.set_conversion_rate sps) s) x
    | set_multiplex mult => exact ih (Call.apply (.set_multiplex mult) s) x
    | set_comparator_mode mode => exact ih (Call.apply (.set_comparator_mode mode) s) x
    | set_comparator_polarity polarity => exact ih (Call.apply (.set_comparator_polarity polarity) s) x
    | set_comparator_latch latch => exact ih (Call.apply (.set_comparator_latch latch) s) x
    | set_comparator_queue queue => exact ih (Call.apply (.set_comparator_queue queue) s) x
    | set_pga pga => exact ih (Call.apply (.set_pga pga) s) x

/-- A conversion does not read the recorded conversion mode. -/
theorem conversion_ignores_mode (s : State) (y : Nat) (bus : List Resp) :
    (ADS1115_get_single_conversion
        { s with ui8_config_register_conversion_mode_mask := y } bus).trace =
      (ADS1115_get_single_conversion s bus).trace ∧
    (ADS1115_get_single_conversion
        { s with ui8_config_register_conversion_mode_mask := y } bus).value =
      (ADS1115_get_single_conversion s bus).value := by
  have hw : config_write_buffer { s with ui8_config_register_conversion_mode_mask := y } =
      config_write_buffer s := rfl
  cases bus with
  | nil => exact ⟨rfl, rfl⟩
  | cons w1 bus1 =>
    simp only [ADS1115_get_single_conversion, hw]
    split_ifs
    · exact ⟨rfl, rfl⟩
    · split
      · exact ⟨rfl, rfl⟩
      · split
        · exact ⟨rfl, rfl⟩
        · exact ⟨rfl, rfl⟩

/-- C4.  In every state reached by setter calls, bit 0 of the high
configuration byte written by `ADS1115_get_single_conversion` is 1; and
`ADS1115_set_conversion_mode`, with any value, only records the value: after
any further setter calls the configuration bytes, the bus calls made by a
conversion and the value it returns are what they are without that call. -/
theorem conversion_mode_forced_single (calls : List Call) (mode : Nat) (after : List Call)
    (bus : List Resp) :
    let s := run initial_state calls
    let t := ADS1115_set_conversion_mode mode s
    (config_write_buffer s).2.1 &&& 1 = 1 ∧
    (config_write_buffer (run t after)).2.1 &&& 1 = 1 ∧
    t.ui8_config_register_conversion_mode_mask = mode % 256 ∧
    config_write_buffer (run t after) = config_write_buffer (run s after) ∧
    (ADS1115_get_single_conversion (run t after) bus).trace =
      (ADS1115_get_single_conversion (run s after) bus).trace ∧
    (ADS1115_get_single_conversion (run t after) bus).value =
      (ADS1115_get_single_conversion (run s after) bus).value := by
  intro s t
  obtain ⟨y, hy⟩ := run_mode_irrelevant after s (mode % 256)
  have ht : run t after = _ := hy
  refine ⟨config_mode_bit _, config_mode_bit _, rfl, ?_, ?_, ?_⟩
  · rw [ht]; rfl
  · rw [ht]; exact (conversion_ignores_mode _ y bus).1
  · rw [ht]; exact (conversion_ignores_mode _ y bus).2

/-! ### The gain setter -/

/-- No gain mask has a bit outside bits 3:1. -/
theorem pga_val_outside (g : PGA_MASK) (i : Nat) :
    ((g.val % 256).testBit i && (0b11110001).testBit i) = false := by
  have h : g.val % 256 &&& 0b11110001 = 0 := by cases g <;> rfl
  rw [← Nat.testBit_and, h, Nat.zero_testBit]

/-- C5.  For every state and every two gains `g1`, `g2`, the configuration
bytes built by `ADS1115_get_single_conversion` after `ADS1115_set_pga(g1)` and
after `ADS1115_set_pga(g2)` have the same pointer byte and the same low byte,
and high bytes that agree on every bit outside bits 3:1; and the configuration
bytes are a function of the eight configuration masks alone, so equal settings
give byte-identical output. -/
theorem set_pga_changes_only_gain_bits (s : State) (g1 g2 : PGA_MASK) :
    let b1 := config_write_buffer (ADS1115_set_pga g1.val s)
    let b2 := config_write_buffer (ADS1115_set_pga g2.val s)
    b1.1 = b2.1 ∧
    b1.2.2 = b2.2.2 ∧
    b1.2.1 &&& 0b11110001 = b2.2.1 &&& 0b11110001 ∧
    ∀ t : State,
      t.ui8_config_register_operation_mask = s.ui8_config_register_operation_mask →
      t.ui8_config_register_mult_mask = s.ui8_config_register_mult_mask →
      t.ui8_config_register_pga_mask = s.ui8_config_register_pga_mask →
      t.ui8_config_register_conversion_rate_mask = s.ui8_config_register_conversion_rate_mask →
      t.ui8_config_register_comparator_mode_mask = s.ui8_config_register_comparator_mode_mask →
      t.ui8_config_register_comparator_polarity_mask =
        s.ui8_config_register_comparator_polarity_mask →
      t.ui8_config_register_comparator_latch_mask = s.ui8_config_register_comparator_latch_mask →
      t.ui8_config_register_comparator_queue_mask = s.ui8_config_register_comparator_queue_mask →
      config_write_buffer t = config_write_buffer s := by
  intro b1 b2
  refine ⟨rfl, rfl, ?_, ?_⟩
  · have e : (256 : Nat) = 2 ^ 8 := by norm_num
    apply Nat.eq_of_testBit_eq
    intro i
    have k1 := pga_val_outside g1 i
    have k2 := pga_val_outside g2 i
    simp only [b1, b2, config_write_buffer, ADS1115_set_pga, e, Nat.testBit_and, Nat.testBit_or,
      Nat.testBit_mod_two_pow] at k1 k2 ⊢
    generalize (g1.val).testBit i = x1 at k1 ⊢
    generalize (g2.val).testBit i = x2 at k2 ⊢
    generalize (0b11110001 : Nat).testBit i = f at k1 k2 ⊢
    generalize decide (i < 8) = d at k1 k2 ⊢
    generalize (s.ui8_config_register_operation_mask).testBit i = a
    generalize (s.ui8_config_register_mult_mask).testBit i = b
    generalize (CONFIG_REGISTER_SINGLE_CONVERSION).testBit i = c
    generalize (0 : Nat).testBit i = z
    revert k1 k2
    cases x1 <;> cases x2 <;> cases f <;> cases d <;> cases a <;> cases b <;> cases c <;>
      cases z <;> decide
  · intro t h1 h2 h3 h4 h5 h6 h7 h8
    simp only [config_write_buffer, h1, h2, h3, h4, h5, h6, h7, h8]

/-- C9.  For each of the six gains `g`, after `ADS1115_set_pga(g)` the cached
resolution is `full_scale_volts(g) / 32768` in exact rational arithmetic, where
the full-scale volts of codes 0..5 are 6.144, 4.096, 2.048, 1.024, 0.512 and
0.256; for the ±4.096 V range it is exactly 0.000125 volts per count. -/
theorem set_pga_caches_resolution (g : PGA_MASK) (s : State) :
    (ADS1115_set_pga g.val s).f_resolution = full_scale_volts g.code / 32768 ∧
    g.code < 6 ∧
    (ADS1115_set_pga PGA_MASK.PGA_4_096.val s).f_resolution = 0.000125 ∧
    full_scale_volts 0 = 6.144 ∧ full_scale_volts 1 = 4.096 ∧ full_scale_volts 2 = 2.048 ∧
    full_scale_volts 3 = 1.024 ∧ full_scale_volts 4 = 0.512 ∧ full_scale_volts 5 = 0.256 := by
  refine ⟨set_pga_resolution g s, pga_code_lt g, ?_, rfl, rfl, rfl, rfl, rfl, rfl⟩
  rw [set_pga_resolution]
  simp only [PGA_MASK.code, full_scale_volts]
  norm_num

/-- A value returned by a conversion is the signed reading of the read buffer
times the resolution cached in the state the conversion started from. -/
theorem conversion_value (s : State) (bus : List Resp) (v : ℚ)
    (h : (ADS1115_get_single_conversion s bus).value = some v) :
    v = (signed_reading (handle_sign
      (ADS1115_get_single_conversion s bus).state.ui8arr_read_buffer) : ℚ) * s.f_resolution := by
  have hv : ∀ d : Nat × Int, (d.1 : ℚ) * s.f_resolution * (d.2 : ℚ) =
      (signed_reading d : ℚ) * s.f_resolution := by
    intro d
    unfold signed_reading
    push_cast
    ring
  cases bus with
  | nil => simp [ADS1115_get_single_conversion] at h
  | cons w1 bus1 =>
    simp only [ADS1115_get_single_conversion] at h ⊢
    by_cases hd : (poll_loop (0, 0) bus1).done = false
    · simp only [hd, if_true] at h
      exact absurd h (by simp)
    · rcases hp : (poll_loop (0, 0) bus1).rest with _ | ⟨w2, _ | ⟨r, bus3⟩⟩
      · simp only [hd, hp, if_false] at h
        exact absurd h (by simp)
      · simp only [hd, hp, if_false] at h
        exact absurd h (by simp)
      · simp only [hd, hp, Bool.true_eq_false, if_false, Option.some.injEq] at h ⊢
        rw [← h, hv]

/-- The first bus call of a conversion that gets an answer is the write of the
three bytes of the write buffer. -/
theorem first_bus_call (s : State) (r : Resp) (rest : List Resp) :
    (ADS1115_get_single_conversion s (r :: rest)).trace.head? =
      some (Xfer.write [(config_write_buffer s).1, (config_write_buffer s).2.1,
        (config_write_buffer s).2.2] r.ret) := by
  simp only [ADS1115_get_single_conversion]
  split_ifs
  · rfl
  · split
    · rfl
    · split
      · rfl
      · rfl

/-- C6.  In every state reached from the initial state by setter calls,
`ADS1115_set_pointer_register` included, the first bus write of
`ADS1115_get_single_conversion` is a 3-byte sequence: the configuration-register
selector `0x01`, then the high and low configuration bytes; and bit 7 of the
high byte, the operation-status bit that starts a conversion, is set. -/
theorem first_write_starts_conversion (calls : List Call) (r : Resp) (rest : List Resp) :
    let s := run initial_state calls
    ∃ hi lo : Nat,
      (ADS1115_get_single_conversion s (r :: rest)).trace.head? =
        some (Xfer.write [0x01, hi, lo] r.ret) ∧
      hi = (config_write_buffer s).2.1 ∧ lo = (config_write_buffer s).2.2 ∧
      hi < 256 ∧ lo < 256 ∧ hi &&& 0x80 = 0x80 ∧ config_image s >>> 15 = 1 := by
  intro s
  obtain ⟨hop, ⟨m, hm⟩, ⟨g, hg, -⟩, ⟨r1, hr⟩, ⟨c, hc⟩, ⟨p, hp⟩, ⟨l, hl⟩, ⟨q, hq⟩⟩ :=
    settled_run calls initial_state settled_initial_state
  have hhi := config_high_byte s m g hop hm hg
  have hlo := config_low_byte s r1 c p l q hr hc hp hl hq
  have hw := config_image_sum s m g r1 c p l q hop hm hg hr hc hp hl hq
  have b1 := mult_code_lt m
  have b2 := pga_code_lt g
  have b3 := rate_code_lt r1
  have b4 := comparator_mode_code_lt c
  have b5 := comparator_polarity_code_lt p
  have b6 := comparator_latch_code_lt l
  have b7 := comparator_queue_code_lt q
  refine ⟨_, _, first_bus_call s r rest, rfl, rfl, by omega, by omega, ?_, ?_⟩
  · rw [hhi]; cases m <;> cases g <;> rfl
  · rw [Nat.shiftRight_eq_div_pow]; omega

/-- C7 (evaluation at the failing input).  When the transport reports 2 bytes
written for the 3-byte configuration write, `ADS1115_get_single_conversion`
does not fail: it goes on to poll, to write the pointer and to read, and
returns the number computed from the read buffer (here `0x4000` counts at the
initial ±4.096 V range, 2.048 volts), as for a real reading. -/
theorem short_write_is_ignored :
    (ADS1115_get_single_conversion initial_state
      [⟨2, 0, 0⟩, ⟨2, 0x80, 0⟩, ⟨3, 0, 0⟩, ⟨2, 0x40, 0x00⟩]).value = some 2.048 ∧
    (ADS1115_get_single_conversion initial_state
      [⟨2, 0, 0⟩, ⟨2, 0x80, 0⟩, ⟨3, 0, 0⟩, ⟨2, 0x40, 0x00⟩]).trace =
      [Xfer.write [0x01, 0xC3, 0x43] 2, Xfer.read 2 2, Xfer.write [0x00, 0xC3, 0x43] 3,
        Xfer.read 2 2] ∧
    (ADS1115_get_single_conversion initial_state
      [⟨2, 0, 0⟩, ⟨2, 0x80, 0⟩, ⟨3, 0, 0⟩, ⟨2, 0x40, 0x00⟩]).value =
    (ADS1115_get_single_conversion initial_state
      [⟨3, 0, 0⟩, ⟨2, 0x80, 0⟩, ⟨3, 0, 0⟩, ⟨2, 0x40, 0x00⟩]).value := by
  refine ⟨?_, ?_, ?_⟩
  · simp [ADS1115_get_single_conversion, poll_loop, read_into, handle_sign, initial_state,
      PGA_4_096V]
    norm_num
  · decide
  · simp [ADS1115_get_single_conversion, poll_loop, read_into, handle_sign, initial_state,
      PGA_4_096V]

end ADS1115

namespace LibADS1115

open ADS1115 (Resp Xfer Outcome read_into signed_reading)

/-! ### Transport faults in `readVolts_1115` -/

/-- The wait for the done bit steps over answers that are busy. -/
theorem poll_1115_busy (polls : List Resp) (hpolls : ∀ p ∈ polls, p.busy)
    (inBuf : Nat × Nat) (tail : List Resp) :
    ∃ inBuf1,
      poll_1115 inBuf (polls ++ tail) =
        { poll_1115 inBuf1 tail with
          trace := List.replicate polls.length (Xfer.read 2 2) ++ (poll_1115 inBuf1 tail).trace } := by
  induction polls generalizing inBuf with
  | nil => exact ⟨inBuf, rfl⟩
  | cons p ps ih =>
    obtain ⟨hret, hbit⟩ := hpolls p (List.mem_cons_self p ps)
    obtain ⟨b, hb⟩ := ih (fun x hx => hpolls x (List.mem_cons_of_mem p hx)) (read_into inBuf p)
    refine ⟨b, ?_⟩
    have hread : (read_into inBuf p).1 &&& 0b10000000 = 0 := by
      simp only [read_into, hret]
      simpa using hbit
    have hstep : poll_1115 inBuf (p :: (ps ++ tail)) =
        { poll_1115 (read_into inBuf p) (ps ++ tail) with
          trace := Xfer.read 2 2 :: (poll_1115 (read_into inBuf p) (ps ++ tail)).trace } := by
      rw [poll_1115]
      simp [hret, hread]
    rw [List.cons_append, hstep, hb]
    simp [List.replicate_succ]

/-- The wait for the done bit ends in a fault at the first answer that is not
of full length. -/
theorem poll_1115_fault (polls : List Resp) (hpolls : ∀ p ∈ polls, p.busy)
    (inBuf : Nat × Nat) (f : Resp) (hf : f.ret ≠ 2) (rest : List Resp) :
    (poll_1115 inBuf (polls ++ f :: rest)).status = .fault ∧
    (poll_1115 inBuf (polls ++ f :: rest)).trace =
      List.replicate polls.length (Xfer.read 2 2) ++ [Xfer.read 2 f.ret] ∧
    (poll_1115 inBuf (polls ++ f :: rest)).rest = rest := by
  obtain ⟨b, hb⟩ := poll_1115_busy polls hpolls inBuf (f :: rest)
  rw [hb]
  simp [poll_1115, hf]

/-- The wait for the done bit ends at the first answer with the done bit set. -/
theorem poll_1115_done (polls : List Resp) (hpolls : ∀ p ∈ polls, p.busy)
    (inBuf : Nat × Nat) (d : Resp) (hd : d.done) (rest : List Resp) :
    (poll_1115 inBuf (polls ++ d :: rest)).status = .ready ∧
    (poll_1115 inBuf (polls ++ d :: rest)).inBuf = (d.b0 % 256, d.b1 % 256) ∧
    (poll_1115 inBuf (polls ++ d :: rest)).trace =
      List.replicate polls.length (Xfer.read 2 2) ++ [Xfer.read 2 2] ∧
    (poll_1115 inBuf (polls ++ d :: rest)).rest = rest := by
  obtain ⟨b, hb⟩ := poll_1115_busy polls hpolls inBuf (d :: rest)
  obtain ⟨hret, hbit⟩ := hd
  have hbit1 : ¬ (d.b0 % 256 &&& 128 = 0) := hbit
  rw [hb]
  simp [poll_1115, hret, read_into, hbit1]

/-- The voltage computed from `retcode` and `sign` is the signed reading times
the resolution. -/
theorem volts_eq (d : Nat × Int) (res : ℚ) :
    (d.1 : ℚ) * res * (d.2 : ℚ) = (signed_reading d : ℚ) * res := by
  unfold signed_reading
  push_cast
  ring

/-- C8.  In `readVolts_1115`, whichever bus transaction first returns a byte
count different from the count requested (the 3-byte configuration write, a
2-byte poll read, the 1-byte pointer write, the final 2-byte read), the
function returns the sentinel `-10.0` and makes no bus call after the faulty
one; and when every transaction returns the requested count and a poll answer
has bit 7 set, it returns the scaled reading. -/
theorem readVolts_1115_transport (s : State) (polls : List Resp)
    (hpolls : ∀ p ∈ polls, p.busy) (rest : List Resp) :
    let cfg := Xfer.write [0x01, (config_outBuf s).2.1, (config_outBuf s).2.2]
    let waits := List.replicate polls.length (Xfer.read 2 2)
    (∀ w1 : Resp, w1.ret ≠ 3 →
      (readVolts_1115 s (w1 :: rest)).value = some (-10) ∧
      (readVolts_1115 s (w1 :: rest)).trace = [cfg w1.ret] ∧
      (readVolts_1115 s (w1 :: rest)).rest = rest) ∧
    (∀ w1 f : Resp, w1.ret = 3 → f.ret ≠ 2 →
      (readVolts_1115 s (w1 :: (polls ++ f :: rest))).value = some (-10) ∧
      (readVolts_1115 s (w1 :: (polls ++ f :: rest))).trace =
        cfg 3 :: (waits ++ [Xfer.read 2 f.ret]) ∧
      (readVolts_1115 s (w1 :: (polls ++ f :: rest))).rest = rest) ∧
    (∀ w1 d w2 : Resp, w1.ret = 3 → d.done → w2.ret ≠ 1 →
      (readVolts_1115 s (w1 :: (polls ++ d :: w2 :: rest))).value = some (-10) ∧
      (readVolts_1115 s (w1 :: (polls ++ d :: w2 :: rest))).trace =
        cfg 3 :: (waits ++ [Xfer.read 2 2, Xfer.write [0x00] w2.ret]) ∧
      (readVolts_1115 s (w1 :: (polls ++ d :: w2 :: rest))).rest = rest) ∧
    (∀ w1 d w2 f : Resp, w1.ret = 3 → d.done → w2.ret = 1 → f.ret ≠ 2 →
      (readVolts_1115 s (w1 :: (polls ++ d :: w2 :: f :: rest))).value = some (-10) ∧
      (readVolts_1115 s (w1 :: (polls ++ d :: w2 :: f :: rest))).trace =
        cfg 3 :: (waits ++ [Xfer.read 2 2, Xfer.write [0x00] 1, Xfer.read 2 f.ret]) ∧
      (readVolts_1115 s (w1 :: (polls ++ d :: w2 :: f :: rest))).rest = rest) ∧
    (∀ w1 d w2 r : Resp, w1.ret = 3 → d.done → w2.ret = 1 → r.ret = 2 →
      (readVolts_1115 s (w1 :: (polls ++ d :: w2 :: r :: rest))).value =
        some ((signed_reading (twos_complement (r.b0 % 256, r.b1 % 256)) : ℚ) * s.adcRes) ∧
      (readVolts_1115 s (w1 :: (polls ++ d :: w2 :: r :: rest))).trace =
        cfg 3 :: (waits ++ [Xfer.read 2 2, Xfer.write [0x00] 1, Xfer.read 2 2]) ∧
      (readVolts_1115 s (w1 :: (polls ++ d :: w2 :: r :: rest))).rest = rest) := by
  intro cfg waits
  refine ⟨?_, ?_, ?_, ?_, ?_⟩
  · intro w1 h1
    simp [readVolts_1115, h1, cfg, config_outBuf]
  · intro w1 f h1 hf
    obtain ⟨e1, e2, e3⟩ := poll_1115_fault polls hpolls s.inBuf f hf rest
    simp [readVolts_1115, h1, e1, e2, e3, cfg, waits, config_outBuf]
  · intro w1 d w2 h1 hd h2
    obtain ⟨e1, e2, e3, e4⟩ := poll_1115_done polls hpolls s.inBuf d hd (w2 :: rest)
    simp [readVolts_1115, h1, h2, e1, e2, e3, e4, cfg, waits, config_outBuf]
  · intro w1 d w2 f h1 hd h2 hf
    obtain ⟨e1, e2, e3, e4⟩ := poll_1115_done polls hpolls s.inBuf d hd (w2 :: f :: rest)
    simp [readVolts_1115, h1, h2, hf, e1, e2, e3, e4, cfg, waits, config_outBuf]
  · intro w1 d w2 r h1 hd h2 hr
    obtain ⟨e1, e2, e3, e4⟩ := poll_1115_done polls hpolls s.inBuf d hd (w2 :: r :: rest)
    have hv := volts_eq (twos_complement (r.b0 % 256, r.b1 % 256)) s.adcRes
    simp [readVolts_1115, h1, h2, hr, e1, e2, e3, e4, cfg, waits, config_outBuf, read_into, hv]

/-- Witness for C8: one busy poll, then a poll read that returns one byte. -/
theorem readVolts_1115_transport_witness :
    (∀ p ∈ [(⟨2, 0x05, 0x83⟩ : Resp)], p.busy) ∧
    (readVolts_1115 initial_state
      [⟨3, 0, 0⟩, ⟨2, 0x05, 0x83⟩, ⟨1, 0x85, 0⟩, ⟨2, 0x12, 0x34⟩]).value =
      some (-10) ∧
    (readVolts_1115 initial_state
      [⟨3, 0, 0⟩, ⟨2, 0x05, 0x83⟩, ⟨1, 0x85, 0⟩, ⟨2, 0x12, 0x34⟩]).trace =
      [Xfer.write [0x01, 0xC3, 0x03] 3, Xfer.read 2 2, Xfer.read 2 1] ∧
    (readVolts_1115 initial_state
      [⟨3, 0, 0⟩, ⟨2, 0x05, 0x83⟩, ⟨1, 0x85, 0⟩, ⟨2, 0x12, 0x34⟩]).rest =
      [⟨2, 0x12, 0x34⟩] :=
  have h : ∀ p ∈ [(⟨2, 0x05, 0x83⟩ : Resp)], p.busy := by decide
  ⟨h, (readVolts_1115_transport initial_state [⟨2, 0x05, 0x83⟩] h [⟨2, 0x12, 0x34⟩]).2.1
    ⟨3, 0, 0⟩ ⟨1, 0x85, 0⟩ (by decide) (by decide)⟩

end LibADS1115

namespace ADS1115

/-! ### Frame of the setters -/

/-- C11.  Each of `ADS1115_set_conversion_rate`, `ADS1115_set_multiplex`,
`ADS1115_set_comparator_mode`, `ADS1115_set_comparator_polarity`,
`ADS1115_set_comparator_latch` and `ADS1115_set_comparator_queue` sets its own
mask to the argument and leaves every other field of the state, the cached
resolution included, as it was; `ADS1115_set_pga` changes the gain mask and the
cached resolution and nothing else. -/
theorem setters_replace_own_field (s : State) (sps : RATE_MASK) (mult : MULT_MASK)
    (mode : COMPARATOR_MODE_MASK) (polarity : COMPARATOR_POLARITY_MASK)
    (latch : COMPARATOR_LATCH_MASK) (queue : COMPARATOR_QUEUE_MASK) (pga : PGA_MASK) :
    ADS1115_set_conversion_rate sps.val s =
      { s with ui8_config_register_conversion_rate_mask := sps.val } ∧
    ADS1115_set_multiplex mult.val s =
      { s with ui8_config_register_mult_mask := mult.val } ∧
    ADS1115_set_comparator_mode mode.val s =
      { s with ui8_config_register_comparator_mode_mask := mode.val } ∧
    ADS1115_set_comparator_polarity polarity.val s =
      { s with ui8_config_register_comparator_polarity_mask := polarity.val } ∧
    ADS1115_set_comparator_latch latch.val s =
      { s with ui8_config_register_comparator_latch_mask := latch.val } ∧
    ADS1115_set_comparator_queue queue.val s =
      { s with ui8_config_register_comparator_queue_mask := queue.val } ∧
    ADS1115_set_pga pga.val s =
      { s with
        ui8_config_register_pga_mask := pga.val
        f_resolution := (ADS1115_set_pga pga.val s).f_resolution } := by
  refine ⟨?_, ?_, ?_, ?_, ?_, ?_, ?_⟩
  · cases sps <;> rfl
  · cases mult <;> rfl
  · cases mode <;> rfl
  · cases polarity <;> rfl
  · cases latch <;> rfl
  · cases queue <;> rfl
  · cases pga <;> rfl

/-! ### Initialisation -/

/-- The clipping of `init_1115`, over all `int` values of its two parameters:
the address bound is one of `0x48, 0x49, 0x4A, 0x4B`, the input when the input
is legal and the nearest legal value otherwise; the bus id lies in `0..255`, is
the input when in range and the nearest bound otherwise; clipping is
idempotent. -/
theorem init_1115_clamps (id addr : Int) :
    ((LibADS1115.init_1115 id addr).addr = 0x48 ∨ (LibADS1115.init_1115 id addr).addr = 0x49 ∨
      (LibADS1115.init_1115 id addr).addr = 0x4A ∨ (LibADS1115.init_1115 id addr).addr = 0x4B) ∧
    (0x48 ≤ addr ∧ addr ≤ 0x4B → (LibADS1115.init_1115 id addr).addr = addr) ∧
    (addr < 0x48 → (LibADS1115.init_1115 id addr).addr = 0x48) ∧
    (0x4B < addr → (LibADS1115.init_1115 id addr).addr = 0x4B) ∧
    (0 ≤ (LibADS1115.init_1115 id addr).id ∧ (LibADS1115.init_1115 id addr).id ≤ 255) ∧
    (0 ≤ id ∧ id ≤ 255 → (LibADS1115.init_1115 id addr).id = id) ∧
    (id < 0 → (LibADS1115.init_1115 id addr).id = 0) ∧
    (255 < id → (LibADS1115.init_1115 id addr).id = 255) ∧
    LibADS1115.init_1115 (LibADS1115.init_1115 id addr).id (LibADS1115.init_1115 id addr).addr =
      LibADS1115.init_1115 id addr := by
  refine ⟨?_, ?_, ?_, ?_, ?_, ?_, ?_, ?_, ?_⟩
  all_goals
    simp only [LibADS1115.init_1115, Binding.mk.injEq]
    intros
    split_ifs <;> omega

/-- The unsigned value an `int` argument has as an `enum ADS1115_ADDRESS`. -/
theorem unsigned_address (addr : Int) :
    (((addr % 4294967296).toNat : Nat) : Int) = addr % 4294967296 :=
  Int.toNat_of_nonneg (Int.emod_nonneg addr (by norm_num))

/-- For an address argument that is not negative, `ADS1115_init` makes the
binding `init_1115` makes. -/
theorem ADS1115_init_nonneg (id addr : Int) (h0 : 0 ≤ addr) (h1 : addr < 4294967296) :
    ADS1115_init id addr = LibADS1115.init_1115 id addr := by
  have hn := unsigned_address addr
  simp only [ADS1115_init, LibADS1115.init_1115, ADDRESS_GND, ADDRESS_SCL, Binding.mk.injEq]
  generalize (addr % 4294967296).toNat = n at hn
  refine ⟨trivial, ?_⟩
  split_ifs <;> omega

/-- The validation of `ADS1115_init`, over all `int` values of its arguments:
the address bound is one of the four legal addresses, the bus id is clamped as
in `init_1115`, and validation is idempotent. -/
theorem ADS1115_init_clamps (id addr : Int) :
    ((ADS1115_init id addr).addr = 0x48 ∨ (ADS1115_init id addr).addr = 0x49 ∨
      (ADS1115_init id addr).addr = 0x4A ∨ (ADS1115_init id addr).addr = 0x4B) ∧
    (ADS1115_init id addr).id = (LibADS1115.init_1115 id addr).id ∧
    ADS1115_init (ADS1115_init id addr).id (ADS1115_init id addr).addr = ADS1115_init id addr := by
  have hn := unsigned_address addr
  have haddr : (ADS1115_init id addr).addr = 0x48 ∨ (ADS1115_init id addr).addr = 0x49 ∨
      (ADS1115_init id addr).addr = 0x4A ∨ (ADS1115_init id addr).addr = 0x4B := by
    simp only [ADS1115_init, ADDRESS_GND, ADDRESS_SCL]
    generalize (addr % 4294967296).toNat = n at hn
    split_ifs <;> omega
  have hid : 0 ≤ (ADS1115_init id addr).id ∧ (ADS1115_init id addr).id ≤ 255 := by
    simp only [ADS1115_init]
    split_ifs <;> omega
  refine ⟨haddr, rfl, ?_⟩
  rw [ADS1115_init_nonneg _ _ (by omega) (by omega)]
  generalize ADS1115_init id addr = b at haddr hid
  obtain ⟨i, a⟩ := b
  simp only at haddr hid
  simp only [LibADS1115.init_1115, Binding.mk.injEq]
  constructor <;> split_ifs <;> omega

/-- An `int` address argument below zero reaches the comparisons of
`ADS1115_init` as a value above `0x4B`: the address bound is `0x4B`. -/
theorem ADS1115_init_negative (id addr : Int) (hlo : -2147483648 ≤ addr) (hneg : addr < 0) :
    (ADS1115_init id addr).addr = 0x4B := by
  have hn := unsigned_address addr
  simp only [ADS1115_init, ADDRESS_GND, ADDRESS_SCL]
  generalize (addr % 4294967296).toNat = n at hn
  split_ifs <;> omega

/-- C14 (evaluation at the failing input).  Given the address argument `-5`,
`ADS1115_init` binds `0x4B`, the upper legal address, where the nearest legal
value is `0x48`, the address `init_1115` binds for the same argument; the bus
id `1` is kept by both. -/
theorem ADS1115_init_negative_address :
    ADS1115_init 1 (-5) = ⟨1, 0x4B⟩ ∧ LibADS1115.init_1115 1 (-5) = ⟨1, 0x48⟩ := by
  constructor <;> decide

/-! ### The poll loop and a complete conversion -/

/-- Once the done bit is in the buffer the poll loop reads nothing more. -/
theorem poll_loop_stop (buffer : Nat × Nat) (h : buffer.1 &&& 0x80 ≠ 0) (bus : List Resp) :
    poll_loop buffer bus = ⟨true, buffer, [], bus⟩ := by
  cases bus with
  | nil => simp [poll_loop, h]
  | cons r rest => simp [poll_loop, h]

/-- The poll loop steps over answers that are busy. -/
theorem poll_loop_busy (polls : List Resp) (hpolls : ∀ p ∈ polls, p.busy)
    (buffer : Nat × Nat) (hbuf : buffer.1 &&& 0x80 = 0) (tail : List Resp) :
    ∃ buffer1, buffer1.1 &&& 0x80 = 0 ∧
      poll_loop buffer (polls ++ tail) =
        { poll_loop buffer1 tail with
          trace := List.replicate polls.length (Xfer.read 2 2) ++
            (poll_loop buffer1 tail).trace } := by
  induction polls generalizing buffer with
  | nil => exact ⟨buffer, hbuf, rfl⟩
  | cons p ps ih =>
    obtain ⟨hret, hbit⟩ := hpolls p (List.mem_cons_self p ps)
    have hread : (read_into buffer p).1 &&& 0x80 = 0 := by
      simp only [read_into, hret]
      simpa using hbit
    obtain ⟨b, hb0, hb⟩ :=
      ih (fun x hx => hpolls x (List.mem_cons_of_mem p hx)) (read_into buffer p) hread
    refine ⟨b, hb0, ?_⟩
    have hstep : poll_loop buffer (p :: (ps ++ tail)) =
        { poll_loop (read_into buffer p) (ps ++ tail) with
          trace := Xfer.read 2 2 :: (poll_loop (read_into buffer p) (ps ++ tail)).trace } := by
      rw [poll_loop]
      simp [hret, hbuf]
    rw [List.cons_append, hstep, hb]
    simp [List.replicate_succ]

/-- The poll loop ends right after the first answer with the done bit set. -/
theorem poll_loop_done (polls : List Resp) (hpolls : ∀ p ∈ polls, p.busy)
    (d : Resp) (hd : d.done) (rest : List Resp) :
    poll_loop (0, 0) (polls ++ d :: rest) =
      ⟨true, (d.b0 % 256, d.b1 % 256),
        List.replicate (polls.length + 1) (Xfer.read 2 2), rest⟩ := by
  obtain ⟨b, hb0, hb⟩ := poll_loop_busy polls hpolls (0, 0) (by decide) (d :: rest)
  obtain ⟨hret, hbit⟩ := hd
  have hset : ((d.b0 % 256, d.b1 % 256) : Nat × Nat).1 &&& 0x80 ≠ 0 := hbit
  have hstep : poll_loop b (d :: rest) =
      ⟨true, (d.b0 % 256, d.b1 % 256), [Xfer.read 2 2], rest⟩ := by
    have hread : read_into b d = (d.b0 % 256, d.b1 % 256) := by
      simp [read_into, hret]
    rw [poll_loop]
    simp only [hb0, if_true, hread]
    rw [poll_loop_stop _ hset, hret]
  rw [hb, hstep]
  simp [List.replicate_succ']

/-- A complete conversion of `ADS1115_get_single_conversion`: configuration
write, busy polls, the poll that shows the done bit, pointer write, result
read. -/
theorem conversion_run (s : State) (w1 : Resp) (polls : List Resp)
    (hpolls : ∀ p ∈ polls, p.busy) (d : Resp) (hd : d.done) (w2 r : Resp)
    (rest : List Resp) :
    ADS1115_get_single_conversion s (w1 :: (polls ++ d :: w2 :: r :: rest)) =
      ⟨some ((signed_reading (handle_sign (read_into (d.b0 % 256, d.b1 % 256) r)) : ℚ) *
          s.f_resolution),
        { s with
          ui8arr_write_buffer := (0, (config_write_buffer s).2.1, (config_write_buffer s).2.2)
          ui8arr_read_buffer := read_into (d.b0 % 256, d.b1 % 256) r },
        Xfer.write [0x01, (config_write_buffer s).2.1, (config_write_buffer s).2.2] w1.ret ::
          (List.replicate (polls.length + 1) (Xfer.read 2 2) ++
            [Xfer.write [0x00, (config_write_buffer s).2.1, (config_write_buffer s).2.2] w2.ret,
              Xfer.read 2 r.ret]),
        rest⟩ := by
  have hp := poll_loop_done polls hpolls d hd (w2 :: r :: rest)
  have hv : ∀ x : Nat × Int, (x.1 : ℚ) * s.f_resolution * (x.2 : ℚ) =
      (signed_reading x : ℚ) * s.f_resolution := by
    intro x
    unfold signed_reading
    push_cast
    ring
  simp only [ADS1115_get_single_conversion, hp, hv]
  simp [config_write_buffer, POINTER_REGISTER_CONFIG]

/-- A read that returns 2 stores both bytes it delivers. -/
theorem read_into_full (buffer : Nat × Nat) (r : Resp) (h : r.ret = 2) :
    read_into buffer r = (r.b0 % 256, r.b1 % 256) := by
  simp [read_into, h]

/-- C15.  With the gain set to ±4.096 V and the bus returning the result bytes
`0x40, 0x00` (decoded reading 16384), the conversion returns
`16384 * (4.096 / 32768) = 2.048` volts in exact rational arithmetic. -/
theorem conversion_16384_at_4_096 (s : State) (w1 : Resp) (polls : List Resp)
    (hpolls : ∀ p ∈ polls, p.busy) (d : Resp) (hd : d.done) (w2 : Resp) (rest : List Resp) :
    (ADS1115_get_single_conversion (ADS1115_set_pga PGA_MASK.PGA_4_096.val s)
      (w1 :: (polls ++ d :: w2 :: ⟨2, 0x40, 0x00⟩ :: rest))).value = some 2.048 ∧
    signed_reading (handle_sign (0x40, 0x00)) = 16384 ∧
    (2.048 : ℚ) = 16384 * (4.096 / 32768) := by
  refine ⟨?_, by decide, by norm_num⟩
  rw [conversion_run _ w1 polls hpolls d hd w2 _ rest, set_pga_resolution]
  have h : signed_reading (handle_sign (read_into (d.b0 % 256, d.b1 % 256) ⟨2, 0x40, 0x00⟩)) =
      16384 := by rw [read_into_full _ _ rfl]; decide
  simp only [h, PGA_MASK.code, full_scale_volts]
  norm_num

/-- Witness for C15: the initial state and a script with one busy poll. -/
theorem conversion_16384_at_4_096_witness :
    (ADS1115_get_single_conversion (ADS1115_set_pga PGA_MASK.PGA_4_096.val initial_state)
      [⟨3, 0, 0⟩, ⟨2, 0x05, 0x83⟩, ⟨2, 0x85, 0x83⟩, ⟨3, 0, 0⟩, ⟨2, 0x40, 0x00⟩]).value =
      some 2.048 :=
  (conversion_16384_at_4_096 initial_state ⟨3, 0, 0⟩ [⟨2, 0x05, 0x83⟩] (by decide)
    ⟨2, 0x85, 0x83⟩ (by decide) ⟨3, 0, 0⟩ []).1

end ADS1115

namespace LibADS1115

open ADS1115 (Resp Xfer Outcome read_into signed_reading)

/-! ### The bus calls of `readVolts_1115` up to the pointer write -/

/-- After a configuration write that returns 3, `readVolts_1115` reads until the
done bit shows and then writes the single byte `0x00`. -/
theorem readVolts_1115_pointer_write (s : State) (v1 : Resp) (hv1 : v1.ret = 3)
    (polls : List Resp) (hpolls : ∀ p ∈ polls, p.busy) (d : Resp) (hd : d.done) (v2 : Resp)
    (tail : List Resp) :
    (readVolts_1115 s (v1 :: (polls ++ d :: v2 :: tail))).trace.take (polls.length + 3) =
      Xfer.write [0x01, (config_outBuf s).2.1, (config_outBuf s).2.2] 3 ::
        (List.replicate (polls.length + 1) (Xfer.read 2 2) ++ [Xfer.write [0x00] v2.ret]) := by
  obtain ⟨e1, e2, e3, e4⟩ := poll_1115_done polls hpolls s.inBuf d hd (v2 :: tail)
  have hlen : (List.replicate polls.length (Xfer.read 2 2) ++ [Xfer.read 2 2]).length =
      polls.length + 1 := by simp
  have hrep : List.replicate (polls.length + 1) (Xfer.read 2 2) =
      List.replicate polls.length (Xfer.read 2 2) ++ [Xfer.read 2 2] :=
    List.replicate_succ' _ _
  rw [hrep]
  by_cases h2 : v2.ret = 1
  · cases tail with
    | nil =>
      simp [readVolts_1115, hv1, h2, e1, e2, e3, e4, config_outBuf]
    | cons r rest =>
      by_cases hr : r.ret = 2
      · simp [readVolts_1115, hv1, h2, hr, e1, e2, e3, e4, config_outBuf, List.take_append_eq_append_take]
      · simp [readVolts_1115, hv1, h2, hr, e1, e2, e3, e4, config_outBuf, List.take_append_eq_append_take]
  · simp [readVolts_1115, hv1, h2, e1, e2, e3, e4, config_outBuf]

end LibADS1115

namespace ADS1115

/-! ### Selecting the conversion register -/

/-- C17 (counterexample).  From the initial state, the write with which
`ADS1115_get_single_conversion` selects the conversion register is the three
bytes `0x00, 0xC3, 0x43`: the two trailing bytes are the configuration bytes,
not zeros, and no write of `0x00, 0x00, 0x00` is made. -/
theorem pointer_write_trailing_bytes_not_zero :
    (ADS1115_get_single_conversion initial_state
      [⟨3, 0, 0⟩, ⟨2, 0x85, 0x83⟩, ⟨3, 0, 0⟩, ⟨2, 0x40, 0x00⟩]).trace =
      [Xfer.write [0x01, 0xC3, 0x43] 3, Xfer.read 2 2, Xfer.write [0x00, 0xC3, 0x43] 3,
        Xfer.read 2 2] ∧
    Xfer.write [0x00, 0x00, 0x00] 3 ∉
      (ADS1115_get_single_conversion initial_state
        [⟨3, 0, 0⟩, ⟨2, 0x85, 0x83⟩, ⟨3, 0, 0⟩, ⟨2, 0x40, 0x00⟩]).trace := by
  constructor <;> decide

/-- C17 (amended).  In the step that selects the conversion-result register,
`ADS1115_get_single_conversion` writes three bytes: the selector `0x00`, then
the high and low configuration bytes still held in the write buffer, of which
the high byte is never zero; `readVolts_1115` writes the single byte `0x00`. -/
theorem pointer_select_write (s : State) (t : LibADS1115.State) (w1 : Resp)
    (polls : List Resp) (hpolls : ∀ p ∈ polls, p.busy) (d : Resp) (hd : d.done)
    (w2 r : Resp) (rest : List Resp) :
    (ADS1115_get_single_conversion s (w1 :: (polls ++ d :: w2 :: r :: rest))).trace.take
        (polls.length + 3) =
      Xfer.write [0x01, (config_write_buffer s).2.1, (config_write_buffer s).2.2] w1.ret ::
        (List.replicate (polls.length + 1) (Xfer.read 2 2) ++
          [Xfer.write [0x00, (config_write_buffer s).2.1, (config_write_buffer s).2.2]
            w2.ret]) ∧
    (config_write_buffer s).2.1 ≠ 0 ∧
    ∀ v1 v2 : Resp, v1.ret = 3 →
      (LibADS1115.readVolts_1115 t (v1 :: (polls ++ d :: v2 :: r :: rest))).trace.take
          (polls.length + 3) =
        Xfer.write [0x01, (LibADS1115.config_outBuf t).2.1, (LibADS1115.config_outBuf t).2.2]
            3 ::
          (List.replicate (polls.length + 1) (Xfer.read 2 2) ++
            [Xfer.write [0x00] v2.ret]) := by
  refine ⟨?_, ?_, ?_⟩
  · rw [conversion_run s w1 polls hpolls d hd w2 r rest]
    simp [List.take_append_eq_append_take]
  · intro h
    have := config_mode_bit s
    rw [h] at this
    exact absurd this (by decide)
  · intro v1 v2 hv1
    exact LibADS1115.readVolts_1115_pointer_write t v1 hv1 polls hpolls d hd v2 (r :: rest)

/-- Witness for the amended C17, on the script of the counterexample. -/
theorem pointer_select_write_witness :
    (ADS1115_get_single_conversion initial_state
      [⟨3, 0, 0⟩, ⟨2, 0x85, 0x83⟩, ⟨3, 0, 0⟩, ⟨2, 0x40, 0x00⟩]).trace.take 3 =
      [Xfer.write [0x01, 0xC3, 0x43] 3, Xfer.read 2 2, Xfer.write [0x00, 0xC3, 0x43] 3] :=
  (pointer_select_write initial_state LibADS1115.initial_state ⟨3, 0, 0⟩ [] (by decide)
    ⟨2, 0x85, 0x83⟩ (by decide) ⟨3, 0, 0⟩ ⟨2, 0x40, 0x00⟩ []).1

/-! ### Number of poll reads -/

/-- The second bus call of a conversion is a poll read, whatever the read buffer
held before. -/
theorem first_poll_read (s : State) (w1 p : Resp) (tail : List Resp) :
    (ADS1115_get_single_conversion s (w1 :: p :: tail)).trace.take 2 =
      [Xfer.write [0x01, (config_write_buffer s).2.1, (config_write_buffer s).2.2] w1.ret,
        Xfer.read 2 p.ret] := by
  have hp : poll_loop (0, 0) (p :: tail) =
      { poll_loop (read_into (0, 0) p) tail with
        trace := Xfer.read 2 p.ret :: (poll_loop (read_into (0, 0) p) tail).trace } := by
    rw [poll_loop]
    simp
  simp only [ADS1115_get_single_conversion, hp]
  split_ifs
  · simp [config_write_buffer, POINTER_REGISTER_CONFIG]
  · split
    · simp [config_write_buffer, POINTER_REGISTER_CONFIG]
    · split
      · simp [config_write_buffer, POINTER_REGISTER_CONFIG]
      · simp [config_write_buffer, POINTER_REGISTER_CONFIG]

/-- C18.  When the poll answers are 2-byte answers of which the first with bit
7 of its first byte set is the `(k+1)`-th, `ADS1115_get_single_conversion` makes
exactly `k + 1` poll reads between the configuration write and the pointer
write, and returns; it makes at least one poll read whatever the read buffer
held, the buffer being cleared before the loop; and the do-while loop of
`readVolts_1115` makes the same `k + 1` reads. -/
theorem poll_reads_until_done (s : State) (t : LibADS1115.State) (w1 : Resp)
    (polls : List Resp) (hpolls : ∀ p ∈ polls, p.busy) (d : Resp) (hd : d.done)
    (w2 r : Resp) (rest : List Resp) :
    (ADS1115_get_single_conversion s (w1 :: (polls ++ d :: w2 :: r :: rest))).trace =
      Xfer.write [0x01, (config_write_buffer s).2.1, (config_write_buffer s).2.2] w1.ret ::
        (List.replicate (polls.length + 1) (Xfer.read 2 2) ++
          [Xfer.write [0x00, (config_write_buffer s).2.1, (config_write_buffer s).2.2] w2.ret,
            Xfer.read 2 r.ret]) ∧
    (ADS1115_get_single_conversion s (w1 :: (polls ++ d :: w2 :: r :: rest))).value ≠ none ∧
    (ADS1115_get_single_conversion s (w1 :: (polls ++ d :: w2 :: r :: rest))).rest = rest ∧
    (poll_loop (0, 0) (polls ++ d :: rest)).done = true ∧
    (poll_loop (0, 0) (polls ++ d :: rest)).trace =
      List.replicate (polls.length + 1) (Xfer.read 2 2) ∧
    (∀ (s0 : State) (p : Resp) (tail : List Resp),
      (ADS1115_get_single_conversion s0 (w1 :: p :: tail)).trace.take 2 =
        [Xfer.write [0x01, (config_write_buffer s0).2.1, (config_write_buffer s0).2.2] w1.ret,
          Xfer.read 2 p.ret]) ∧
    (LibADS1115.poll_1115 t.inBuf (polls ++ d :: rest)).status = .ready ∧
    (LibADS1115.poll_1115 t.inBuf (polls ++ d :: rest)).trace =
      List.replicate (polls.length + 1) (Xfer.read 2 2) ∧
    ∀ v1 v2 : Resp, v1.ret = 3 →
      (LibADS1115.readVolts_1115 t (v1 :: (polls ++ d :: v2 :: r :: rest))).trace.take
          (polls.length + 3) =
        Xfer.write [0x01, (LibADS1115.config_outBuf t).2.1, (LibADS1115.config_outBuf t).2.2]
            3 ::
          (List.replicate (polls.length + 1) (Xfer.read 2 2) ++
            [Xfer.write [0x00] v2.ret]) := by
  have hrun := conversion_run s w1 polls hpolls d hd w2 r rest
  have hloop := poll_loop_done polls hpolls d hd rest
  obtain ⟨e1, -, e3, -⟩ := LibADS1115.poll_1115_done polls hpolls t.inBuf d hd rest
  refine ⟨by rw [hrun], by rw [hrun]; simp, by rw [hrun], by rw [hloop], by rw [hloop],
    fun s0 p tail => first_poll_read s0 w1 p tail, e1, ?_, ?_⟩
  · rw [e3, List.replicate_succ']
  · intro v1 v2 hv1
    exact LibADS1115.readVolts_1115_pointer_write t v1 hv1 polls hpolls d hd v2 (r :: rest)

/-- Witness for C18: two busy polls, so the third poll read is the last. -/
theorem poll_reads_until_done_witness :
    (ADS1115_get_single_conversion initial_state
      [⟨3, 0, 0⟩, ⟨2, 0x05, 0x83⟩, ⟨2, 0x05, 0x83⟩, ⟨2, 0x85, 0x83⟩, ⟨3, 0, 0⟩,
        ⟨2, 0x40, 0x00⟩]).trace =
      [Xfer.write [0x01, 0xC3, 0x43] 3, Xfer.read 2 2, Xfer.read 2 2, Xfer.read 2 2,
        Xfer.write [0x00, 0xC3, 0x43] 3, Xfer.read 2 2] :=
  (poll_reads_until_done initial_state LibADS1115.initial_state ⟨3, 0, 0⟩
    [⟨2, 0x05, 0x83⟩, ⟨2, 0x05, 0x83⟩] (by decide) ⟨2, 0x85, 0x83⟩ (by decide) ⟨3, 0, 0⟩
    ⟨2, 0x40, 0x00⟩ []).1

/-! ### Range of the returned voltage -/

/-- The signed reading of `ADS1115_get_single_conversion` lies within 16 bits. -/
theorem handle_sign_bound (buffer : Nat × Nat) :
    -32768 ≤ signed_reading (handle_sign buffer) ∧ signed_reading (handle_sign buffer) ≤ 32768 := by
  unfold signed_reading handle_sign
  have hv : (buffer.1 <<< 8 ||| buffer.2) % 65536 < 65536 := Nat.mod_lt _ (by norm_num)
  generalize (buffer.1 <<< 8 ||| buffer.2) % 65536 = v at hv
  dsimp only
  split_ifs <;> simp <;> omega

/-- A 16-bit signed count scaled by `fs / 32768` has magnitude at most `fs`. -/
theorem scaled_abs_le (n : Int) (hlo : -32768 ≤ n) (hhi : n ≤ 32768) (fs : ℚ) (hfs : 0 ≤ fs) :
    |(n : ℚ) * (fs / 32768)| ≤ fs := by
  have h1 : |(n : ℚ)| ≤ 32768 := by
    rw [abs_le]
    constructor
    · exact_mod_cast hlo
    · exact_mod_cast hhi
  have h2 : (0 : ℚ) ≤ fs / 32768 := by positivity
  rw [abs_mul, abs_of_nonneg h2]
  calc |(n : ℚ)| * (fs / 32768) ≤ 32768 * (fs / 32768) := mul_le_mul_of_nonneg_right h1 h2
    _ = fs := by ring

theorem full_scale_volts_nonneg (g : PGA_MASK) : 0 ≤ full_scale_volts g.code := by
  cases g <;> simp only [PGA_MASK.code, full_scale_volts] <;> norm_num

/-- With both products taken exactly, every value a conversion returns after
`ADS1115_set_pga(g)` has magnitude at most the full-scale volts of `g`: an
excess over the full scale can come from the rounding of the `float` objects
only. -/
theorem conversion_abs_le (g : PGA_MASK) (s : State) (bus : List Resp) (v : ℚ)
    (h : (ADS1115_get_single_conversion (ADS1115_set_pga g.val s) bus).value = some v) :
    |v| ≤ full_scale_volts g.code := by
  rw [conversion_value _ bus v h, set_pga_resolution]
  exact scaled_abs_le _ (handle_sign_bound _).1 (handle_sign_bound _).2 _
    (full_scale_volts_nonneg g)

/-! ### The returned voltage in binary32 arithmetic -/

/-- An integer within one half of `x` is the one `x` rounds to. -/
theorem round_half_even_near (x : ℚ) (m : Int) (h : |x - m| < 1 / 2) :
    round_half_even x = m := by
  rw [abs_lt] at h
  unfold round_half_even
  by_cases hm : (m : ℚ) ≤ x
  · have hf : ⌊x⌋ = m := Int.floor_eq_iff.mpr ⟨hm, by linarith⟩
    simp only [hf]
    rw [if_pos (by linarith)]
  · have hf : ⌊x⌋ = m - 1 :=
      Int.floor_eq_iff.mpr ⟨by push_cast; linarith, by push_cast; linarith⟩
    simp only [hf]
    push_cast
    rw [if_neg (by linarith), if_pos (by linarith)]
    ring

/-- The rounding of a positive `q` with `2^e ≤ q < 2^(e+1)`: the significand
is the integer nearest to `q / 2^(e - (p - 1))`. -/
theorem round_binary_eq (p : Nat) (q : ℚ) (e m : Int) (hlo : (2 : ℚ) ^ e ≤ q)
    (hhi : q < (2 : ℚ) ^ (e + 1))
    (hm : |q / (2 : ℚ) ^ (e - ((p : Int) - 1)) - m| < 1 / 2) :
    round_binary p q = (m : ℚ) * (2 : ℚ) ^ (e - ((p : Int) - 1)) := by
  have hq : 0 < q := lt_of_lt_of_le (by positivity) hlo
  have hlog : Int.log 2 |q| = e := by
    rw [abs_of_pos hq]
    apply le_antisymm
    · have := (Int.lt_zpow_iff_log_lt (b := 2) (by norm_num) hq).mp (by exact_mod_cast hhi)
      omega
    · exact (Int.zpow_le_iff_le_log (b := 2) (by norm_num) hq).mp (by exact_mod_cast hlo)
  unfold round_binary
  rw [if_neg hq.ne']
  simp only [hlog]
  rw [round_half_even_near _ m hm]

/-- The `double` constant `PGA_4_096V`. -/
theorem binary64_PGA_4_096V : binary64 PGA_4_096V = 4611686018427388 / 2 ^ 50 := by
  have h := round_binary_eq 53 4.096 2 4611686018427388 (by norm_num) (by norm_num)
    (by norm_num [abs_lt])
  unfold binary64 PGA_4_096V
  rw [h]
  norm_num

/-- The `float` object `f_temp_range` after `f_temp_range = PGA_4_096V`: the
binary32 number next above 4.096. -/
theorem binary32_PGA_4_096V : binary32 (binary64 PGA_4_096V) = 8589935 / 2 ^ 21 := by
  have h := round_binary_eq 24 (4611686018427388 / 2 ^ 50) 2 8589935 (by norm_num) (by norm_num)
    (by norm_num [abs_lt])
  rw [binary64_PGA_4_096V]
  unfold binary32
  rw [h]
  norm_num

/-- The `float` object `f_resolution` after `ADS1115_set_pga(PGA_4_096)`. -/
theorem resolution_4_096 :
    binary32 (binary64 (binary32 (binary64 PGA_4_096V) / 32768)) = 8589935 / 2 ^ 36 := by
  have h64 := round_binary_eq 53 (8589935 / 2 ^ 36) (-13) (8589935 * 2 ^ 29) (by norm_num)
    (by norm_num) (by norm_num [abs_lt])
  have h32 := round_binary_eq 24 (8589935 / 2 ^ 36) (-13) 8589935 (by norm_num)
    (by norm_num) (by norm_num [abs_lt])
  have e64 : binary64 (8589935 / 2 ^ 36) = 8589935 / 2 ^ 36 := by
    unfold binary64
    rw [h64]
    norm_num
  have e32 : binary32 (8589935 / 2 ^ 36) = 8589935 / 2 ^ 36 := by
    unfold binary32
    rw [h32]
    norm_num
  rw [binary32_PGA_4_096V]
  have hdiv : (8589935 / 2 ^ 21 : ℚ) / 32768 = 8589935 / 2 ^ 36 := by norm_num
  rw [hdiv, e64, e32]

/-- The binary32 products of line 185 for the magnitude 32768, the sign `+1`
and the resolution of the ±4.096 V range. -/
theorem d_temp_conversion_float_32768 :
    d_temp_conversion_float (32768, 1) (8589935 / 2 ^ 36) = 8589935 / 2097152 := by
  have h32 := round_binary_eq 24 (8589935 / 2097152) 2 8589935 (by norm_num) (by norm_num)
    (by norm_num [abs_lt])
  have e32 : binary32 (8589935 / 2097152) = 8589935 / 2097152 := by
    unfold binary32
    rw [h32]
    norm_num
  unfold d_temp_conversion_float
  have hprod : (((32768, 1) : Nat × Int).1 : ℚ) * (8589935 / 2 ^ 36) = 8589935 / 2097152 := by
    norm_num
  have hsign : (8589935 / 2097152 : ℚ) * ((((32768, 1) : Nat × Int).2 : Int) : ℚ) =
      8589935 / 2097152 := by norm_num
  rw [hprod, e32, hsign, e32]

/-- C20.  The returned voltage is not clamped and exceeds the nominal full
scale: after `ADS1115_set_pga(PGA_4_096)`, with the result bytes `0x80, 0x00`,
`ADS1115_get_single_conversion` returns `8589935 / 2097152` volts (about
4.0960002), the binary32 value of `f_temp_range`, which is strictly greater
than the 4.096 volts of the active gain; so there are a gain range and a pair
of result bytes for which the magnitude of the returned voltage is strictly
greater than the full-scale volts of the active gain. -/
theorem voltage_exceeds_full_scale :
    (ADS1115_get_single_conversion_float
      (ADS1115_set_pga_float PGA_MASK.PGA_4_096.val initial_state)
      [⟨3, 0, 0⟩, ⟨2, 0x80, 0x00⟩, ⟨3, 0, 0⟩, ⟨2, 0x80, 0x00⟩]).value =
        some (8589935 / 2097152) ∧
    full_scale_volts PGA_MASK.PGA_4_096.code < |(8589935 / 2097152 : ℚ)| ∧
    ∃ (g : PGA_MASK) (hi lo : Nat) (v : ℚ), hi < 256 ∧ lo < 256 ∧
      (ADS1115_get_single_conversion_float (ADS1115_set_pga_float g.val initial_state)
        [⟨3, 0, 0⟩, ⟨2, 0x80, 0x00⟩, ⟨3, 0, 0⟩, ⟨2, hi, lo⟩]).value = some v ∧
      full_scale_volts g.code < |v| := by
  have hres : (ADS1115_set_pga_float PGA_MASK.PGA_4_096.val initial_state).f_resolution =
      8589935 / 2 ^ 36 := by
    have hsel : (ADS1115_set_pga_float PGA_MASK.PGA_4_096.val initial_state).f_resolution =
        binary32 (binary64 (binary32 (binary64 PGA_4_096V) / 32768)) := by
      simp [ADS1115_set_pga_float, PGA_MASK.val, CONFIG_REGISTER_PGA_6_144,
        CONFIG_REGISTER_PGA_4_096]
    rw [hsel, resolution_4_096]
  have hrun := conversion_run (ADS1115_set_pga_float PGA_MASK.PGA_4_096.val initial_state)
    ⟨3, 0, 0⟩ [] (by simp) ⟨2, 0x80, 0x00⟩ (by decide) ⟨3, 0, 0⟩ ⟨2, 0x80, 0x00⟩ []
  rw [List.nil_append] at hrun
  have hbuf : handle_sign (read_into ((0x80 : Nat) % 256, (0x00 : Nat) % 256) ⟨2, 0x80, 0x00⟩) =
      (32768, 1) := by decide
  have hval : (ADS1115_get_single_conversion_float
      (ADS1115_set_pga_float PGA_MASK.PGA_4_096.val initial_state)
      [⟨3, 0, 0⟩, ⟨2, 0x80, 0x00⟩, ⟨3, 0, 0⟩, ⟨2, 0x80, 0x00⟩]).value =
        some (8589935 / 2097152) := by
    unfold ADS1115_get_single_conversion_float
    rw [hrun]
    simp only [Option.map_some', hbuf, hres, d_temp_conversion_float_32768]
  have hgt : full_scale_volts PGA_MASK.PGA_4_096.code < |(8589935 / 2097152 : ℚ)| := by
    rw [abs_of_pos (by norm_num)]
    simp only [PGA_MASK.code, full_scale_volts]
    norm_num
  exact ⟨hval, hgt, .PGA_4_096, 0x80, 0x00, _, by norm_num, by norm_num, hval, hgt⟩

end ADS1115

namespace LibADS1115

open ADS1115 (Resp Xfer Outcome read_into signed_reading)

/-! ### The sentinel and the range of readings -/

/-- The signed reading of `readVolts_1115` lies within 16 bits. -/
theorem twos_complement_bound (inBuf : Nat × Nat) :
    -32768 ≤ signed_reading (twos_complement inBuf) ∧
    signed_reading (twos_complement inBuf) ≤ 32768 := by
  unfold signed_reading twos_complement
  have hv : (inBuf.1 <<< 8 ||| inBuf.2) % 65536 < 65536 := Nat.mod_lt _ (by norm_num)
  generalize (inBuf.1 <<< 8 ||| inBuf.2) % 65536 = v at hv
  dsimp only
  split_ifs <;> simp <;> omega

/-- A wait for the done bit that ends in a fault has made a read that did not
return 2. -/
theorem poll_1115_fault_call (bus : List Resp) (inBuf : Nat × Nat)
    (h : (poll_1115 inBuf bus).status = .fault) :
    ∃ x ∈ (poll_1115 inBuf bus).trace, x.ret ≠ (x.requested : Int) := by
  induction bus generalizing inBuf with
  | nil => simp [poll_1115] at h
  | cons r rest ih =>
    rw [poll_1115] at h ⊢
    by_cases hr : r.ret = 2
    · by_cases hb : (read_into inBuf r).1 &&& 0b10000000 = 0
      · simp only [hr, hb, ne_eq, not_true_eq_false, if_false, if_true] at h ⊢
        obtain ⟨x, hx, hne⟩ := ih _ h
        exact ⟨x, List.mem_cons_of_mem _ hx, hne⟩
      · simp [hr, hb] at h
    · refine ⟨Xfer.read 2 r.ret, ?_, ?_⟩
      · simp [hr]
      · simpa [Xfer.ret, Xfer.requested] using hr

/-- A value returned by `readVolts_1115` is the signed reading of the input
buffer times the resolution, unless one of the bus calls made did not return
the count it asked for. -/
theorem readVolts_1115_value (s : State) (bus : List Resp) (v : ℚ)
    (h : (readVolts_1115 s bus).value = some v) :
    (∃ x ∈ (readVolts_1115 s bus).trace, x.ret ≠ (x.requested : Int)) ∨
    v = (signed_reading (twos_complement (readVolts_1115 s bus).state.inBuf) : ℚ) * s.adcRes := by
  cases bus with
  | nil => simp [readVolts_1115] at h
  | cons w1 bus1 =>
    by_cases h1 : w1.ret = 3
    · rcases hst : (poll_1115 s.inBuf bus1).status with _ | _ | _
      · rcases hrest : (poll_1115 s.inBuf bus1).rest with _ | ⟨w2, bus2⟩
        · simp [readVolts_1115, h1, hst, hrest] at h
        · by_cases h2 : w2.ret = 1
          · cases bus2 with
            | nil => simp [readVolts_1115, h1, hst, hrest, h2] at h
            | cons r bus3 =>
              by_cases hr : r.ret = 2
              · right
                simp only [readVolts_1115, h1, hst, hrest, h2, hr, ne_eq, not_true_eq_false,
                  if_false, Option.some.injEq] at h ⊢
                rw [← h, volts_eq]
              · left
                refine ⟨Xfer.read 2 r.ret, ?_, ?_⟩
                · simp [readVolts_1115, h1, hst, hrest, h2, hr]
                · simpa [Xfer.ret, Xfer.requested] using hr
          · left
            refine ⟨Xfer.write [0] w2.ret, ?_, ?_⟩
            · simp [readVolts_1115, h1, hst, hrest, h2]
            · simpa [Xfer.ret, Xfer.requested] using h2
      · left
        obtain ⟨x, hx, hne⟩ := poll_1115_fault_call bus1 s.inBuf hst
        refine ⟨x, ?_, hne⟩
        simp [readVolts_1115, h1, hst, hx]
      · simp [readVolts_1115, h1, hst] at h
    · left
      refine ⟨Xfer.write [(config_outBuf s).1, (config_outBuf s).2.1, (config_outBuf s).2.2]
        w1.ret, ?_, ?_⟩
      · simp [readVolts_1115, h1]
      · simpa [Xfer.ret, Xfer.requested] using h1

/-- The resolution stored by `setPGA_1115` is a range of at most 6.144 volts
divided by 32768. -/
theorem setPGA_1115_resolution (g : configPGA_1115) (s : State) :
    ∃ range : ℚ, 0 ≤ range ∧ range ≤ 6.144 ∧ (setPGA_1115 g s).adcRes = range / 32768 := by
  cases g
  · exact ⟨6.144, by norm_num, by norm_num, rfl⟩
  · exact ⟨4.096, by norm_num, by norm_num, rfl⟩
  · exact ⟨2.048, by norm_num, by norm_num, rfl⟩
  · exact ⟨1.024, by norm_num, by norm_num, rfl⟩
  · exact ⟨0.512, by norm_num, by norm_num, rfl⟩
  · exact ⟨0.256, by norm_num, by norm_num, rfl⟩

/-- After `setPGA_1115`, a value returned by a conversion whose bus calls all
return the count asked for has, with the product taken exactly, magnitude at
most 6.144. -/
theorem reading_abs_le (g : configPGA_1115) (s : State) (bus : List Resp) (v : ℚ)
    (hok : ∀ x ∈ (readVolts_1115 (setPGA_1115 g s) bus).trace, x.ret = (x.requested : Int))
    (hv : (readVolts_1115 (setPGA_1115 g s) bus).value = some v) :
    |v| ≤ 6.144 := by
  rcases readVolts_1115_value _ bus v hv with ⟨x, hx, hne⟩ | hval
  · exact absurd (hok x hx) hne
  · obtain ⟨range, h0, h1, hres⟩ := setPGA_1115_resolution g s
    rw [hval, hres]
    exact le_trans (ADS1115.scaled_abs_le _ (twos_complement_bound _).1
      (twos_complement_bound _).2 range h0) h1

/-- C19 (counterexample).  There are no gain range and no bus answers for which
a conversion of `readVolts_1115` in which every bus transaction returns the
count asked for returns the sentinel `-10.0`. -/
theorem sentinel_outside_voltage_range :
    ¬ ∃ (g : configPGA_1115) (s : State) (bus : List Resp),
      (∀ x ∈ (readVolts_1115 (setPGA_1115 g s) bus).trace, x.ret = (x.requested : Int)) ∧
      (readVolts_1115 (setPGA_1115 g s) bus).value = some (-10) := by
  rintro ⟨g, s, bus, hok, hv⟩
  have h := reading_abs_le g s bus (-10) hok hv
  norm_num [abs_le] at h

/-- C19 (amended).  For every gain range and all bus answers, a conversion of
`readVolts_1115` in which every bus transaction returns the count asked for
never returns the sentinel `-10.0`. -/
theorem reading_never_sentinel (g : configPGA_1115) (s : State) (bus : List Resp) (v : ℚ)
    (hok : ∀ x ∈ (readVolts_1115 (setPGA_1115 g s) bus).trace, x.ret = (x.requested : Int))
    (hv : (readVolts_1115 (setPGA_1115 g s) bus).value = some v) :
    v ≠ -10 := by
  have h := reading_abs_le g s bus v hok hv
  intro hv10
  rw [hv10] at h
  norm_num [abs_le] at h

/-- Witness for the amended C19: a conversion at the ±4.096 V range whose result
bytes are `0x40, 0x00`. -/
theorem reading_never_sentinel_witness :
    (2.048 : ℚ) ≠ -10 :=
  reading_never_sentinel .PGA4_096 initial_state
    [⟨3, 0, 0⟩, ⟨2, 0x85, 0x83⟩, ⟨1, 0, 0⟩, ⟨2, 0x40, 0x00⟩] 2.048 (by decide)
    (by
      simp [readVolts_1115, poll_1115, read_into, twos_complement, setPGA_1115, initial_state]
      norm_num)

end LibADS1115

namespace ADS1115

/-! ### Averaging -/

theorem in_sequence_length {σ : Type} (conv : σ → List Resp → Outcome σ) (n : Nat) (s : σ)
    (bus : List Resp) : (in_sequence conv n s bus).length = n := by
  induction n generalizing s bus with
  | zero => rfl
  | succ n ih => simp [in_sequence, ih]

/-- When each of the `n` calls returns a value, the summing loop finishes, adds
the values to the sum, and its bus calls are those of the calls, in order. -/
theorem sum_loop_in_sequence {σ : Type} (conv : σ → List Resp → Outcome σ) (n : Nat) (s : σ)
    (bus : List Resp) (acc : ℚ)
    (h : ∀ o ∈ in_sequence conv n s bus, o.value ≠ none) :
    (sum_loop conv n s bus acc).finished = true ∧
    (sum_loop conv n s bus acc).sum =
      acc + ((in_sequence conv n s bus).filterMap Outcome.value).sum ∧
    (sum_loop conv n s bus acc).trace =
      ((in_sequence conv n s bus).map Outcome.trace).flatten := by
  induction n generalizing s bus acc with
  | zero => simp [sum_loop, in_sequence]
  | succ n ih =>
    have h0 : (conv s bus).value ≠ none := h _ (by simp [in_sequence])
    obtain ⟨v, hv⟩ := Option.ne_none_iff_exists'.mp h0
    have htail : ∀ o ∈ in_sequence conv n (conv s bus).state (conv s bus).rest,
        o.value ≠ none := fun o ho => h o (by simp [in_sequence, ho])
    obtain ⟨i1, i2, i3⟩ := ih (conv s bus).state (conv s bus).rest (acc + v) htail
    simp only [sum_loop, in_sequence, hv, i1, i2, i3, List.filterMap_cons, List.map_cons,
      List.flatten_cons, List.sum_cons]
    exact ⟨trivial, by ring, trivial⟩

/-- The poll loop makes no configuration write. -/
theorem poll_loop_no_config_write (bus : List Resp) (buffer : Nat × Nat) :
    (poll_loop buffer bus).trace.filter Xfer.is_config_write = [] := by
  induction bus generalizing buffer with
  | nil => rw [poll_loop]; split_ifs <;> rfl
  | cons r rest ih =>
    rw [poll_loop]
    split_ifs
    · simp [ih, Xfer.is_config_write]
    · rfl

/-- A conversion that returns a value has made exactly one configuration
write. -/
theorem conversion_one_config_write (s : State) (bus : List Resp)
    (h : (ADS1115_get_single_conversion s bus).value ≠ none) :
    ((ADS1115_get_single_conversion s bus).trace.filter Xfer.is_config_write).length = 1 := by
  cases bus with
  | nil => simp [ADS1115_get_single_conversion] at h
  | cons w1 bus1 =>
    have hp := poll_loop_no_config_write bus1 (0, 0)
    simp only [ADS1115_get_single_conversion] at h ⊢
    generalize poll_loop (0, 0) bus1 = P at hp h ⊢
    by_cases hd : P.done = false
    · simp [hd] at h
    · rcases hrest : P.rest with _ | ⟨w2, _ | ⟨r, bus3⟩⟩
      · simp [hd, hrest] at h
      · simp [hd, hrest] at h
      · simp [hd, hrest, List.filter_append, hp, Xfer.is_config_write, config_write_buffer,
          POINTER_REGISTER_CONFIG]

/-- Configuration writes add up over calls made in sequence. -/
theorem config_writes_flatten (outs : List (Outcome State))
    (h : ∀ o ∈ outs, (o.trace.filter Xfer.is_config_write).length = 1) :
    (((outs.map Outcome.trace).flatten).filter Xfer.is_config_write).length = outs.length := by
  induction outs with
  | nil => rfl
  | cons o os ih =>
    have h1 := h o (List.mem_cons_self o os)
    have h2 := ih (fun x hx => h x (List.mem_cons_of_mem o hx))
    simp only [List.map_cons, List.flatten_cons, List.filter_append, List.length_append,
      List.length_cons]
    rw [h1, h2]
    omega

/-- The outcomes of calls made in sequence are outcomes of the driver
function. -/
theorem in_sequence_mem {σ : Type} (conv : σ → List Resp → Outcome σ) (n : Nat) (s : σ)
    (bus : List Resp) (o : Outcome σ) (ho : o ∈ in_sequence conv n s bus) :
    ∃ s1 bus1, o = conv s1 bus1 := by
  induction n generalizing s bus with
  | zero => simp [in_sequence] at ho
  | succ n ih =>
    simp only [in_sequence, List.mem_cons] at ho
    rcases ho with rfl | ho
    · exact ⟨s, bus, rfl⟩
    · exact ih _ _ ho

/-- C12.  For every `count >= 0`, when each conversion returns,
`ADS1115_get_average_conversions(count)` makes exactly `count` single
conversions one after another: its bus calls are those of `count` conversions,
each started from the state and the bus answers the one before left, with
`count` configuration writes in all; and for `count >= 1` it returns the sum of
the `count` conversion results divided by `count`. -/
theorem average_makes_count_conversions (count : Int) (hcount : 0 ≤ count) (s : State)
    (bus : List Resp)
    (hret : ∀ o ∈ in_sequence ADS1115_get_single_conversion count.toNat s bus,
      o.value ≠ none) :
    ((in_sequence ADS1115_get_single_conversion count.toNat s bus).length : Int) = count ∧
    (ADS1115_get_average_conversions count s bus).finished = true ∧
    (ADS1115_get_average_conversions count s bus).trace =
      ((in_sequence ADS1115_get_single_conversion count.toNat s bus).map
        Outcome.trace).flatten ∧
    (((ADS1115_get_average_conversions count s bus).trace.filter
      Xfer.is_config_write).length : Int) = count ∧
    (1 ≤ count →
      (ADS1115_get_average_conversions count s bus).value =
        some (((in_sequence ADS1115_get_single_conversion count.toNat s bus).filterMap
          Outcome.value).sum / (count : ℚ))) := by
  obtain ⟨i1, i2, i3⟩ :=
    sum_loop_in_sequence ADS1115_get_single_conversion count.toNat s bus 0 hret
  have hlen := in_sequence_length ADS1115_get_single_conversion count.toNat s bus
  have hnat : ((count.toNat : Nat) : Int) = count := Int.toNat_of_nonneg hcount
  have hwrites : ∀ o ∈ in_sequence ADS1115_get_single_conversion count.toNat s bus,
      (o.trace.filter Xfer.is_config_write).length = 1 := by
    intro o ho
    obtain ⟨s1, bus1, rfl⟩ := in_sequence_mem _ _ _ _ o ho
    exact conversion_one_config_write s1 bus1 (hret _ ho)
  refine ⟨by rw [hlen, hnat], i1, i3, ?_, ?_⟩
  · show (((sum_loop ADS1115_get_single_conversion count.toNat s bus 0).trace.filter
      Xfer.is_config_write).length : Int) = count
    rw [i3, config_writes_flatten _ hwrites, hlen, hnat]
  · intro h1
    have hne : count ≠ 0 := by omega
    have hfin : (ADS1115_get_average_conversions count s bus).finished = true := i1
    have hsum : (ADS1115_get_average_conversions count s bus).sum =
        ((in_sequence ADS1115_get_single_conversion count.toNat s bus).filterMap
          Outcome.value).sum := by
      show (sum_loop ADS1115_get_single_conversion count.toNat s bus 0).sum = _
      rw [i2, zero_add]
    have hcnt : (ADS1115_get_average_conversions count s bus).count = count := rfl
    simp [Averaged.value, hfin, hsum, hcnt, hne]

/-- On a script that repeats one complete exchange `n` times, each of `n`
conversions made in sequence returns the same value. -/
theorem in_sequence_repeated_exchange (n : Nat) (s : State) (w1 d w2 r : Resp) (hd : d.done)
    (rest : List Resp) :
    ∀ o ∈ in_sequence ADS1115_get_single_conversion n s
        ((List.replicate n [w1, d, w2, r]).flatten ++ rest),
      o.value = some ((signed_reading (handle_sign (read_into (d.b0 % 256, d.b1 % 256) r)) : ℚ) *
        s.f_resolution) := by
  induction n generalizing s with
  | zero => simp [in_sequence]
  | succ n ih =>
    have hrun := conversion_run s w1 [] (by simp) d hd w2 r
      ((List.replicate n [w1, d, w2, r]).flatten ++ rest)
    rw [List.nil_append] at hrun
    have hbus : (List.replicate (n + 1) [w1, d, w2, r]).flatten ++ rest =
        w1 :: d :: w2 :: r :: ((List.replicate n [w1, d, w2, r]).flatten ++ rest) := by
      simp [List.replicate_succ]
    intro o ho
    rw [hbus, in_sequence, hrun] at ho
    simp only [List.mem_cons] at ho
    rcases ho with rfl | ho
    · rfl
    · exact ih { s with
        ui8arr_write_buffer := (0, (config_write_buffer s).2.1, (config_write_buffer s).2.2)
        ui8arr_read_buffer := read_into (d.b0 % 256, d.b1 % 256) r } o ho

/-- The script of the averaging witnesses: `n` exchanges that each deliver 16384
counts, from the initial state. -/
theorem repeated_exchange_values (n : Nat) :
    ∀ o ∈ in_sequence ADS1115_get_single_conversion n initial_state
        ((List.replicate n
          [(⟨3, 0, 0⟩ : Resp), ⟨2, 0x85, 0x83⟩, ⟨3, 0, 0⟩, ⟨2, 0x40, 0x00⟩]).flatten ++ []),
      o.value = some 2.048 := by
  intro o ho
  rw [in_sequence_repeated_exchange n initial_state ⟨3, 0, 0⟩ ⟨2, 0x85, 0x83⟩ ⟨3, 0, 0⟩
    ⟨2, 0x40, 0x00⟩ (by decide) [] o ho]
  have hsig : signed_reading (handle_sign (read_into ((0x85 : Nat) % 256, (0x83 : Nat) % 256)
      ⟨2, 0x40, 0x00⟩)) = 16384 := by decide
  simp only [hsig, initial_state, PGA_4_096V]
  norm_num

/-- Witness for C12: two conversions on a script of two complete exchanges. -/
theorem average_makes_count_conversions_witness :
    (ADS1115_get_average_conversions 2 initial_state
      ((List.replicate 2
        [(⟨3, 0, 0⟩ : Resp), ⟨2, 0x85, 0x83⟩, ⟨3, 0, 0⟩, ⟨2, 0x40, 0x00⟩]).flatten ++
        [])).finished = true ∧
    (((ADS1115_get_average_conversions 2 initial_state
      ((List.replicate 2
        [(⟨3, 0, 0⟩ : Resp), ⟨2, 0x85, 0x83⟩, ⟨3, 0, 0⟩, ⟨2, 0x40, 0x00⟩]).flatten ++
        [])).trace.filter Xfer.is_config_write).length : Int) = 2 :=
  have h := average_makes_count_conversions 2 (by decide) initial_state
    ((List.replicate 2
      [(⟨3, 0, 0⟩ : Resp), ⟨2, 0x85, 0x83⟩, ⟨3, 0, 0⟩, ⟨2, 0x40, 0x00⟩]).flatten ++ [])
    (fun o ho => by rw [repeated_exchange_values 2 o ho]; simp)
  ⟨h.2.1, h.2.2.2.1⟩

/-- The values of a list of outcomes that all return `k` sum to the length
times `k`. -/
theorem sum_constant_values {σ : Type} (outs : List (Outcome σ)) (k : ℚ)
    (h : ∀ o ∈ outs, o.value = some k) :
    (outs.filterMap Outcome.value).sum = (outs.length : ℚ) * k := by
  induction outs with
  | nil => simp
  | cons o os ih =>
    have h1 := h o (List.mem_cons_self o os)
    have h2 := ih (fun x hx => h x (List.mem_cons_of_mem o hx))
    rw [List.filterMap_cons, h1, List.sum_cons, h2, List.length_cons]
    push_cast
    ring

/-- C13.  If every one of the `N` conversions made by
`ADS1115_get_average_conversions(N)` returns the same value `k`, the average
returned is exactly `k`, for every `N >= 1`. -/
theorem average_of_constant (N : Int) (hN : 1 ≤ N) (k : ℚ) (s : State) (bus : List Resp)
    (hk : ∀ o ∈ in_sequence ADS1115_get_single_conversion N.toNat s bus, o.value = some k) :
    (ADS1115_get_average_conversions N s bus).value = some k := by
  have hret : ∀ o ∈ in_sequence ADS1115_get_single_conversion N.toNat s bus,
      o.value ≠ none := fun o ho => by rw [hk o ho]; simp
  obtain ⟨i1, i2, -⟩ :=
    sum_loop_in_sequence ADS1115_get_single_conversion N.toNat s bus 0 hret
  have hlen := in_sequence_length ADS1115_get_single_conversion N.toNat s bus
  have hnat : ((N.toNat : Nat) : Int) = N := Int.toNat_of_nonneg (by omega)
  have hne : N ≠ 0 := by omega
  have hq : ((N.toNat : Nat) : ℚ) = (N : ℚ) := by exact_mod_cast hnat
  have hNq : (N : ℚ) ≠ 0 := by exact_mod_cast hne
  have hfin : (ADS1115_get_average_conversions N s bus).finished = true := i1
  have hsum : (ADS1115_get_average_conversions N s bus).sum = (N : ℚ) * k := by
    show (sum_loop ADS1115_get_single_conversion N.toNat s bus 0).sum = _
    rw [i2, zero_add, sum_constant_values _ k hk, hlen, hq]
  have hcnt : (ADS1115_get_average_conversions N s bus).count = N := rfl
  simp only [Averaged.value, hfin, hsum, hcnt, hne, ne_eq, not_false_eq_true, and_self, if_true,
    Option.some.injEq]
  field_simp

/-- Witness for C13: `N = 1`, `N = 5` and `N = 8` conversions that each return
2.048 volts. -/
theorem average_of_constant_witness :
    (ADS1115_get_average_conversions 1 initial_state
      ((List.replicate 1
        [(⟨3, 0, 0⟩ : Resp), ⟨2, 0x85, 0x83⟩, ⟨3, 0, 0⟩, ⟨2, 0x40, 0x00⟩]).flatten ++
        [])).value = some 2.048 ∧
    (ADS1115_get_average_conversions 5 initial_state
      ((List.replicate 5
        [(⟨3, 0, 0⟩ : Resp), ⟨2, 0x85, 0x83⟩, ⟨3, 0, 0⟩, ⟨2, 0x40, 0x00⟩]).flatten ++
        [])).value = some 2.048 ∧
    (ADS1115_get_average_conversions 8 initial_state
      ((List.replicate 8
        [(⟨3, 0, 0⟩ : Resp), ⟨2, 0x85, 0x83⟩, ⟨3, 0, 0⟩, ⟨2, 0x40, 0x00⟩]).flatten ++
        [])).value = some 2.048 :=
  ⟨average_of_constant 1 (by decide) 2.048 initial_state _ (repeated_exchange_values 1),
    average_of_constant 5 (by decide) 2.048 initial_state _ (repeated_exchange_values 5),
    average_of_constant 8 (by decide) 2.048 initial_state _ (repeated_exchange_values 8)⟩

end ADS1115

namespace ADS1115

/-! ### A conversion leaves the settings alone -/

/-- A conversion changes the two buffers and no other field of the state. -/
theorem conversion_frame (s : State) (bus : List Resp) :
    (ADS1115_get_single_conversion s bus).state =
      { s with
        ui8arr_write_buffer := (ADS1115_get_single_conversion s bus).state.ui8arr_write_buffer
        ui8arr_read_buffer := (ADS1115_get_single_conversion s bus).state.ui8arr_read_buffer } := by
  cases bus with
  | nil => rfl
  | cons w1 bus1 =>
    simp only [ADS1115_get_single_conversion]
    generalize poll_loop (0, 0) bus1 = P
    by_cases hd : P.done = false
    · simp [hd]
    · rcases hrest : P.rest with _ | ⟨w2, _ | ⟨r, bus3⟩⟩
      · simp [hd, hrest]
      · simp [hd, hrest]
      · simp [hd, hrest]

/-- C22.  Whatever the bus returns, `ADS1115_get_single_conversion` leaves every
configuration mask (operation, multiplexer, gain, mode, rate, comparator mode,
polarity, latch, queue), the pointer mask and the cached resolution unchanged:
only the two buffers change; so a conversion that follows with no setter call
in between writes the same three configuration bytes. -/
theorem conversion_keeps_settings (s : State) (bus : List Resp) (r r2 : Resp)
    (rest rest2 : List Resp) :
    (ADS1115_get_single_conversion s bus).state =
      { s with
        ui8arr_write_buffer := (ADS1115_get_single_conversion s bus).state.ui8arr_write_buffer
        ui8arr_read_buffer :=
          (ADS1115_get_single_conversion s bus).state.ui8arr_read_buffer } ∧
    (ADS1115_get_single_conversion s bus).state.ui8_config_register_operation_mask =
      s.ui8_config_register_operation_mask ∧
    (ADS1115_get_single_conversion s bus).state.ui8_config_register_mult_mask =
      s.ui8_config_register_mult_mask ∧
    (ADS1115_get_single_conversion s bus).state.ui8_config_register_pga_mask =
      s.ui8_config_register_pga_mask ∧
    (ADS1115_get_single_conversion s bus).state.ui8_config_register_conversion_mode_mask =
      s.ui8_config_register_conversion_mode_mask ∧
    (ADS1115_get_single_conversion s bus).state.ui8_config_register_conversion_rate_mask =
      s.ui8_config_register_conversion_rate_mask ∧
    (ADS1115_get_single_conversion s bus).state.ui8_config_register_comparator_mode_mask =
      s.ui8_config_register_comparator_mode_mask ∧
    (ADS1115_get_single_conversion s bus).state.ui8_config_register_comparator_polarity_mask =
      s.ui8_config_register_comparator_polarity_mask ∧
    (ADS1115_get_single_conversion s bus).state.ui8_config_register_comparator_latch_mask =
      s.ui8_config_register_comparator_latch_mask ∧
    (ADS1115_get_single_conversion s bus).state.ui8_config_register_comparator_queue_mask =
      s.ui8_config_register_comparator_queue_mask ∧
    (ADS1115_get_single_conversion s bus).state.ui8_pointer_register_mask =
      s.ui8_pointer_register_mask ∧
    (ADS1115_get_single_conversion s bus).state.f_resolution = s.f_resolution ∧
    config_write_buffer (ADS1115_get_single_conversion s bus).state = config_write_buffer s ∧
    (ADS1115_get_single_conversion s (r :: rest)).trace.head? =
      some (Xfer.write [(config_write_buffer s).1, (config_write_buffer s).2.1,
        (config_write_buffer s).2.2] r.ret) ∧
    (ADS1115_get_single_conversion (ADS1115_get_single_conversion s bus).state
        (r2 :: rest2)).trace.head? =
      some (Xfer.write [(config_write_buffer s).1, (config_write_buffer s).2.1,
        (config_write_buffer s).2.2] r2.ret) := by
  have hframe := conversion_frame s bus
  have hcfg : config_write_buffer (ADS1115_get_single_conversion s bus).state =
      config_write_buffer s := by
    rw [hframe]
    rfl
  have hnext := first_bus_call (ADS1115_get_single_conversion s bus).state r2 rest2
  rw [hcfg] at hnext
  refine ⟨hframe, ?_, ?_, ?_, ?_, ?_, ?_, ?_, ?_, ?_, ?_, ?_, hcfg, first_bus_call s r rest,
    hnext⟩
  all_goals (rw [hframe])

/-! ### `ADS1115_get_average_conversions`: the divisor -/

/-- C26 (evaluation at the failing input).  With `count = 0` the loop of
`ADS1115_get_average_conversions` makes no conversion and the divisor of the
final division `d_temp_sum / count` is zero; the same holds for `avgReads`
with `numReads = 0`. -/
theorem average_divisor_zero (s : State) (t : LibADS1115.State) (bus : List Resp) :
    (ADS1115_get_average_conversions 0 s bus).count = 0 ∧
    (ADS1115_get_average_conversions 0 s bus).finished = true ∧
    (ADS1115_get_average_conversions 0 s bus).sum = 0 ∧
    (ADS1115_get_average_conversions 0 s bus).trace = [] ∧
    (ADS1115_get_average_conversions 0 s bus).value = none ∧
    (LibADS1115.avgReads 0 t bus).count = 0 ∧
    (LibADS1115.avgReads 0 t bus).finished = true ∧
    (LibADS1115.avgReads 0 t bus).sum = 0 ∧
    (LibADS1115.avgReads 0 t bus).trace = [] ∧
    (LibADS1115.avgReads 0 t bus).value = none := by
  refine ⟨rfl, rfl, rfl, rfl, ?_, rfl, rfl, rfl, rfl, ?_⟩
  · simp [Averaged.value, ADS1115_get_average_conversions]
  · simp [Averaged.value, LibADS1115.avgReads]

end ADS1115

namespace LibADS1115

open ADS1115 (Resp Xfer Outcome read_into signed_reading)

/-! ### The setters of `libads1115.c` -/

/-- C23.  For every `int channel`, after `setCH_1115(channel)` the channel mask
is `0x40 | (c << 4)` with `c = channel` when `0 <= channel <= 3` and `c = 0`
otherwise: one of the four single-ended multiplexer codes `0b100..0b111` in
bits 6:4 and nothing outside those bits; no other field changes. -/
theorem setCH_1115_mask (channel : Int) (s : State) :
    (setCH_1115 channel s).chanMask =
      0x40 ||| ((if 0 ≤ channel ∧ channel ≤ 3 then channel.toNat else 0) <<< 4) ∧
    (setCH_1115 channel s).chanMask &&& 0b10001111 = 0 ∧
    (∃ code : Nat, 0b100 ≤ code ∧ code ≤ 0b111 ∧ (setCH_1115 channel s).chanMask = code <<< 4) ∧
    (channel < 0 ∨ 3 < channel → setCH_1115 channel s = setCH_1115 0 s) ∧
    setCH_1115 channel s = { s with chanMask := (setCH_1115 channel s).chanMask } := by
  have hcases : channel = 0 ∨ channel = 1 ∨ channel = 2 ∨ channel = 3 ∨
      (channel < 0 ∨ 3 < channel) := by omega
  rcases hcases with rfl | rfl | rfl | rfl | hout
  · have hm : (setCH_1115 0 s).chanMask = 0b01000000 := rfl
    rw [hm]
    exact ⟨by decide, by decide, ⟨4, by decide, by decide, by decide⟩, fun _ => rfl, rfl⟩
  · have hm : (setCH_1115 1 s).chanMask = 0b01010000 := rfl
    rw [hm]
    exact ⟨by decide, by decide, ⟨5, by decide, by decide, by decide⟩,
      fun h => absurd h (by decide), rfl⟩
  · have hm : (setCH_1115 2 s).chanMask = 0b01100000 := rfl
    rw [hm]
    exact ⟨by decide, by decide, ⟨6, by decide, by decide, by decide⟩,
      fun h => absurd h (by decide), rfl⟩
  · have hm : (setCH_1115 3 s).chanMask = 0b01110000 := rfl
    rw [hm]
    exact ⟨by decide, by decide, ⟨7, by decide, by decide, by decide⟩,
      fun h => absurd h (by decide), rfl⟩
  · have h1 : channel ≠ 1 := by omega
    have h2 : channel ≠ 2 := by omega
    have h3 : channel ≠ 3 := by omega
    have hr : ¬ (0 ≤ channel ∧ channel ≤ 3) := by omega
    have hch : setCH_1115 channel s = { s with chanMask := 0b01000000 } := by
      simp [setCH_1115, h1, h2, h3]
    have hm : (setCH_1115 channel s).chanMask = 0b01000000 := by rw [hch]
    rw [hm, if_neg hr]
    exact ⟨by decide, by decide, ⟨4, by decide, by decide, by decide⟩, fun _ => hch, hch⟩

/-- After `setPGA_1115` the resolution is the one of the gain code stored in
`multMask`. -/
theorem setPGA_1115_matches_mask (g : configPGA_1115) (s : State) :
    (setPGA_1115 g s).adcRes =
      ADS1115.full_scale_volts ((setPGA_1115 g s).multMask >>> 1) / 32768 := by
  cases g
  · have ha : (setPGA_1115 .PGA6_144 s).adcRes = 6.144 / 32768 := rfl
    have hm : (setPGA_1115 .PGA6_144 s).multMask = 0b00000000 := rfl
    have hc : (0b00000000 : Nat) >>> 1 = 0 := by decide
    rw [ha, hm, hc]
    rfl
  · have ha : (setPGA_1115 .PGA4_096 s).adcRes = 4.096 / 32768 := rfl
    have hm : (setPGA_1115 .PGA4_096 s).multMask = 0b00000010 := rfl
    have hc : (0b00000010 : Nat) >>> 1 = 1 := by decide
    rw [ha, hm, hc]
    rfl
  · have ha : (setPGA_1115 .PGA2_048 s).adcRes = 2.048 / 32768 := rfl
    have hm : (setPGA_1115 .PGA2_048 s).multMask = 0b00000100 := rfl
    have hc : (0b00000100 : Nat) >>> 1 = 2 := by decide
    rw [ha, hm, hc]
    rfl
  · have ha : (setPGA_1115 .PGA1_024 s).adcRes = 1.024 / 32768 := rfl
    have hm : (setPGA_1115 .PGA1_024 s).multMask = 0b00000110 := rfl
    have hc : (0b00000110 : Nat) >>> 1 = 3 := by decide
    rw [ha, hm, hc]
    rfl
  · have ha : (setPGA_1115 .PGA0_512 s).adcRes = 0.512 / 32768 := rfl
    have hm : (setPGA_1115 .PGA0_512 s).multMask = 0b00001000 := rfl
    have hc : (0b00001000 : Nat) >>> 1 = 4 := by decide
    rw [ha, hm, hc]
    rfl
  · have ha : (setPGA_1115 .PGA0_256 s).adcRes = 0.256 / 32768 := rfl
    have hm : (setPGA_1115 .PGA0_256 s).multMask = 0b00001010 := rfl
    have hc : (0b00001010 : Nat) >>> 1 = 5 := by decide
    rw [ha, hm, hc]
    rfl

/-- C24 (evaluation at the failing input).  In the initial module state of
`libads1115.c`, and after `setCH_1115` and `setSPS_1115` calls, `adcRes` is 0
while `multMask` holds the gain code of the ±4.096 V range: the resolution is
not `4.096 / 32768`, and a conversion made before any `setPGA_1115` call
returns 0 for the result bytes `0x40, 0x00` instead of 2.048. -/
theorem initial_adcRes_is_zero :
    initial_state.adcRes = 0 ∧
    initial_state.multMask >>> 1 = 1 ∧
    ADS1115.full_scale_volts (initial_state.multMask >>> 1) = 4.096 ∧
    initial_state.adcRes ≠ ADS1115.full_scale_volts (initial_state.multMask >>> 1) / 32768 ∧
    (setSPS_1115 .SPS128 (setCH_1115 1 initial_state)).adcRes = 0 ∧
    (setSPS_1115 .SPS128 (setCH_1115 1 initial_state)).multMask >>> 1 = 1 ∧
    (readVolts_1115 initial_state
      [⟨3, 0, 0⟩, ⟨2, 0x85, 0x83⟩, ⟨1, 0, 0⟩, ⟨2, 0x40, 0x00⟩]).value = some 0 ∧
    (readVolts_1115 initial_state
      [⟨3, 0, 0⟩, ⟨2, 0x85, 0x83⟩, ⟨1, 0, 0⟩, ⟨2, 0x40, 0x00⟩]).value ≠ some 2.048 := by
  have hv : (readVolts_1115 initial_state
      [⟨3, 0, 0⟩, ⟨2, 0x85, 0x83⟩, ⟨1, 0, 0⟩, ⟨2, 0x40, 0x00⟩]).value = some 0 := by
    simp [readVolts_1115, poll_1115, read_into, twos_complement, initial_state]
  refine ⟨rfl, rfl, rfl, ?_, rfl, rfl, hv, ?_⟩
  · simp only [initial_state, ADS1115.full_scale_volts]
    norm_num
  · rw [hv]
    norm_num

/-! ### The two drivers write the same configuration -/

/-- The first bus call of `readVolts_1115` that gets an answer is the write of
the three bytes of the output buffer. -/
theorem readVolts_1115_first_call (s : State) (r : Resp) (rest : List Resp) :
    (readVolts_1115 s (r :: rest)).trace.head? =
      some (Xfer.write [(config_outBuf s).1, (config_outBuf s).2.1, (config_outBuf s).2.2]
        r.ret) := by
  simp only [readVolts_1115]
  generalize poll_1115 s.inBuf rest = P
  by_cases h1 : r.ret = 3
  · rcases hst : P.status with _ | _ | _
    · rcases hrest : P.rest with _ | ⟨w2, _ | ⟨f, bus3⟩⟩
      · simp [h1, hst, hrest]
      · by_cases h2 : w2.ret = 1 <;> simp [h1, hst, hrest, h2]
      · by_cases h2 : w2.ret = 1
        · by_cases hf : f.ret = 2 <;> simp [h1, hst, hrest, h2, hf]
        · simp [h1, hst, hrest, h2]
    · simp [h1, hst]
    · simp [h1, hst]
  · simp [h1]

/-- The output buffer of `readVolts_1115` in terms of the three masks. -/
theorem config_outBuf_masks (u : State) :
    config_outBuf u =
      (0b00000001, (0b10000001 ||| (u.chanMask ||| u.multMask)) % 256,
        (0b00000011 ||| u.rateMask) % 256) := rfl

/-- The mask `setCH_1115(c)` stores is the integer of `MULT_AIN_c`. -/
theorem setCH_1115_single_ended (c : Fin 4) (u : State) :
    (setCH_1115 (c.val : Int) u).chanMask = (MULT_AIN c).val ∧
    (setCH_1115 (c.val : Int) u).multMask = u.multMask ∧
    (setCH_1115 (c.val : Int) u).rateMask = u.rateMask := by
  fin_cases c <;> exact ⟨rfl, rfl, rfl⟩

/-- The mask `setSPS_1115` stores is the integer of the matching member of
`enum RATE_MASK`. -/
theorem setSPS_1115_rate (rate : convRate_1115) (u : State) :
    (setSPS_1115 rate u).rateMask = rate.toRATE_MASK.val ∧
    (setSPS_1115 rate u).multMask = u.multMask := by
  cases rate <;> exact ⟨rfl, rfl⟩

/-- The mask `setPGA_1115` stores is the integer of the matching member of
`enum PGA_MASK`. -/
theorem setPGA_1115_gain (g : configPGA_1115) (u : State) :
    (setPGA_1115 g u).multMask = g.toPGA_MASK.val := by
  cases g <;> rfl

/-- C25.  For every gain of the six ranges, every sample rate of the eight
rates and every single-ended channel `c` in `0..3`, the 3-byte configuration
sequence written by `readVolts_1115` after `setPGA_1115`, `setSPS_1115` and
`setCH_1115(c)` equals the one written by `ADS1115_get_single_conversion` after
`ADS1115_set_pga`, `ADS1115_set_conversion_rate` and
`ADS1115_set_multiplex(MULT_AIN_c)` from the initial state, where the
comparator settings have their initial values. -/
theorem drivers_write_same_configuration (g : configPGA_1115) (rate : convRate_1115)
    (c : Fin 4) (t : State) (r : Resp) (rest : List Resp) :
    config_outBuf (setCH_1115 (c.val : Int) (setSPS_1115 rate (setPGA_1115 g t))) =
      ADS1115.config_write_buffer
        (ADS1115.run ADS1115.initial_state
          [.set_pga g.toPGA_MASK, .set_conversion_rate rate.toRATE_MASK,
            .set_multiplex (MULT_AIN c)]) ∧
    (readVolts_1115 (setCH_1115 (c.val : Int) (setSPS_1115 rate (setPGA_1115 g t)))
        (r :: rest)).trace.head? =
      (ADS1115.ADS1115_get_single_conversion
        (ADS1115.run ADS1115.initial_state
          [.set_pga g.toPGA_MASK, .set_conversion_rate rate.toRATE_MASK,
            .set_multiplex (MULT_AIN c)])
        (r :: rest)).trace.head? := by
  have hbuf : config_outBuf (setCH_1115 (c.val : Int) (setSPS_1115 rate (setPGA_1115 g t))) =
      ADS1115.config_write_buffer
        (ADS1115.run ADS1115.initial_state
          [.set_pga g.toPGA_MASK, .set_conversion_rate rate.toRATE_MASK,
            .set_multiplex (MULT_AIN c)]) := by
    rw [config_outBuf_masks, (setCH_1115_single_ended c _).1, (setCH_1115_single_ended c _).2.1,
      (setCH_1115_single_ended c _).2.2, (setSPS_1115_rate rate _).1,
      (setSPS_1115_rate rate _).2, setPGA_1115_gain]
    cases g <;> cases rate <;> fin_cases c <;> rfl
  refine ⟨hbuf, ?_⟩
  rw [readVolts_1115_first_call, ADS1115.first_bus_call, hbuf]

/-! ### Averaging with a failed sample -/

/-- A wait for the done bit that does not end in a fault has made only reads
that returned 2. -/
theorem poll_1115_ok_calls (bus : List Resp) (inBuf : Nat × Nat)
    (h : (poll_1115 inBuf bus).status ≠ .fault) :
    ∀ x ∈ (poll_1115 inBuf bus).trace, x.ret = (x.requested : Int) := by
  induction bus generalizing inBuf with
  | nil => simp [poll_1115]
  | cons r rest ih =>
    rw [poll_1115] at h ⊢
    by_cases hr : r.ret = 2
    · by_cases hb : (read_into inBuf r).1 &&& 0b10000000 = 0
      · simp only [hr, hb, ne_eq, not_true_eq_false, if_false, if_true] at h ⊢
        intro x hx
        rcases List.mem_cons.mp hx with rfl | hx
        · rfl
        · exact ih _ h x hx
      · simp [hr, hb, Xfer.ret, Xfer.requested]
    · simp [hr] at h

/-- Either `readVolts_1115` returns the sentinel, or every bus call it made
returned the count asked for. -/
theorem readVolts_1115_sentinel_or_ok (s : State) (bus : List Resp) :
    (readVolts_1115 s bus).value = some (-10) ∨
    ∀ x ∈ (readVolts_1115 s bus).trace, x.ret = (x.requested : Int) := by
  cases bus with
  | nil => right; simp [readVolts_1115]
  | cons w1 bus1 =>
    have hok := poll_1115_ok_calls bus1 s.inBuf
    simp only [readVolts_1115]
    generalize poll_1115 s.inBuf bus1 = P at hok
    by_cases h1 : w1.ret = 3
    · rcases hst : P.status with _ | _ | _
      · have hP := hok (by rw [hst]; decide)
        rcases hrest : P.rest with _ | ⟨w2, _ | ⟨f, bus3⟩⟩
        · right
          intro x hx
          simp only [h1, hst, hrest, ne_eq, not_true_eq_false, if_false, List.cons_append,
            List.nil_append, List.mem_cons] at hx
          rcases hx with rfl | hx
          · simp [Xfer.ret, Xfer.requested]
          · exact hP x hx
        · by_cases h2 : w2.ret = 1
          · right
            intro x hx
            simp only [h1, hst, hrest, h2, ne_eq, not_true_eq_false, if_false, List.cons_append,
              List.nil_append, List.mem_cons, List.mem_append, List.mem_singleton,
              List.not_mem_nil, or_false] at hx
            rcases hx with rfl | hx | rfl
            · simp [Xfer.ret, Xfer.requested]
            · exact hP x hx
            · simp [Xfer.ret, Xfer.requested]
          · left
            simp [h1, hst, hrest, h2]
        · by_cases h2 : w2.ret = 1
          · by_cases hf : f.ret = 2
            · right
              intro x hx
              simp only [h1, hst, hrest, h2, hf, ne_eq, not_true_eq_false, if_false,
                List.cons_append, List.nil_append, List.mem_cons, List.mem_append,
                List.mem_singleton, List.not_mem_nil, or_false] at hx
              rcases hx with rfl | (hx | rfl) | rfl
              · simp [Xfer.ret, Xfer.requested]
              · exact hP x hx
              · simp [Xfer.ret, Xfer.requested]
              · simp [Xfer.ret, Xfer.requested]
            · left
              simp [h1, hst, hrest, h2, hf]
          · left
            simp [h1, hst, hrest, h2]
      · left
        simp [h1, hst]
      · have hP := hok (by rw [hst]; decide)
        right
        intro x hx
        simp only [h1, hst, ne_eq, not_true_eq_false, if_false, List.cons_append,
          List.nil_append, List.mem_cons] at hx
        rcases hx with rfl | hx
        · simp [Xfer.ret, Xfer.requested]
        · exact hP x hx
    · left
      simp [h1]

/-- A call of `readVolts_1115` in which a bus call did not return the count
asked for returns the sentinel. -/
theorem readVolts_1115_fault_value (s : State) (bus : List Resp)
    (h : ∃ x ∈ (readVolts_1115 s bus).trace, x.ret ≠ (x.requested : Int)) :
    (readVolts_1115 s bus).value = some (-10) := by
  rcases readVolts_1115_sentinel_or_ok s bus with hv | hok
  · exact hv
  · obtain ⟨x, hx, hne⟩ := h
    exact absurd (hok x hx) hne

/-- C21.  For every `N >= 1`, if exactly one of the `N` conversions made by
`avgReads(N)` meets a transport fault, and so returns the sentinel `-10.0`, and
each of the other `N - 1` returns `k`, then `avgReads` finishes with all `N`
conversions made and returns `((N - 1) * k - 10) / N`, a plain number like any
other average. -/
theorem avgReads_includes_failed_sample (N : Int) (hN : 1 ≤ N) (k : ℚ) (s : State)
    (bus : List Resp) (pre post : List (Outcome State)) (f : Outcome State)
    (hseq : ADS1115.in_sequence readVolts_1115 N.toNat s bus = pre ++ f :: post)
    (hfault : ∃ x ∈ f.trace, x.ret ≠ (x.requested : Int))
    (hk : ∀ o ∈ pre ++ post, o.value = some k) :
    f.value = some (-10) ∧
    (avgReads N s bus).value = some (((N - 1 : Int) * k - 10) / (N : ℚ)) ∧
    (avgReads N s bus).finished = true ∧
    (avgReads N s bus).trace = ((pre ++ f :: post).map Outcome.trace).flatten ∧
    ((pre ++ f :: post).length : Int) = N := by
  have hmem : f ∈ ADS1115.in_sequence readVolts_1115 N.toNat s bus := by
    rw [hseq]; simp
  obtain ⟨s1, bus1, hf1⟩ := ADS1115.in_sequence_mem _ _ _ _ f hmem
  have hf : f.value = some (-10) := by
    rw [hf1] at hfault ⊢
    exact readVolts_1115_fault_value s1 bus1 hfault
  have hkpre : ∀ o ∈ pre, o.value = some k := fun o ho => hk o (List.mem_append_left _ ho)
  have hkpost : ∀ o ∈ post, o.value = some k := fun o ho => hk o (List.mem_append_right _ ho)
  have hret : ∀ o ∈ ADS1115.in_sequence readVolts_1115 N.toNat s bus, o.value ≠ none := by
    intro o ho
    rw [hseq, List.mem_append, List.mem_cons] at ho
    rcases ho with ho | rfl | ho
    · rw [hkpre o ho]; simp
    · rw [hf]; simp
    · rw [hkpost o ho]; simp
  obtain ⟨i1, i2, i3⟩ := ADS1115.sum_loop_in_sequence readVolts_1115 N.toNat s bus 0 hret
  have hlen := ADS1115.in_sequence_length readVolts_1115 N.toNat s bus
  rw [hseq] at hlen i2 i3
  have hnat : ((N.toNat : Nat) : Int) = N := Int.toNat_of_nonneg (by omega)
  have hlenZ : ((pre ++ f :: post).length : Int) = N := by rw [hlen, hnat]
  have hcount : ((pre.length : ℚ) + (post.length : ℚ)) = ((N - 1 : Int) : ℚ) := by
    have h1 : ((pre.length + post.length : Nat) : Int) = N - 1 := by
      simp only [List.length_append, List.length_cons] at hlenZ
      omega
    exact_mod_cast h1
  have hsum : (avgReads N s bus).sum = ((N - 1 : Int) : ℚ) * k - 10 := by
    show (ADS1115.sum_loop readVolts_1115 N.toNat s bus 0).sum = _
    rw [i2, zero_add, List.filterMap_append, List.filterMap_cons, hf, List.sum_append,
      List.sum_cons, ADS1115.sum_constant_values pre k hkpre,
      ADS1115.sum_constant_values post k hkpost, ← hcount]
    ring
  have hfin : (avgReads N s bus).finished = true := i1
  have hcnt : (avgReads N s bus).count = N := rfl
  have hne : N ≠ 0 := by omega
  refine ⟨hf, ?_, hfin, i3, hlenZ⟩
  simp [ADS1115.Averaged.value, hfin, hsum, hcnt, hne]

/-- Witness for C21: three conversions at the ±4.096 V range, the second of
which meets a short configuration write. -/
theorem avgReads_includes_failed_sample_witness :
    (avgReads 3 (setPGA_1115 .PGA4_096 initial_state)
      [⟨3, 0, 0⟩, ⟨2, 0x85, 0x83⟩, ⟨1, 0, 0⟩, ⟨2, 0x40, 0x00⟩,
        ⟨2, 0, 0⟩,
        ⟨3, 0, 0⟩, ⟨2, 0x85, 0x83⟩, ⟨1, 0, 0⟩, ⟨2, 0x40, 0x00⟩]).value = some ((((3 - 1 : Int) : ℚ) * 2.048 - 10) / ((3 : Int) : ℚ)) := by
  have hk : ∀ o ∈
      [readVolts_1115 (setPGA_1115 .PGA4_096 initial_state)
        [⟨3, 0, 0⟩, ⟨2, 0x85, 0x83⟩, ⟨1, 0, 0⟩, ⟨2, 0x40, 0x00⟩,
        ⟨2, 0, 0⟩,
        ⟨3, 0, 0⟩, ⟨2, 0x85, 0x83⟩, ⟨1, 0, 0⟩, ⟨2, 0x40, 0x00⟩]] ++
      [readVolts_1115
        (readVolts_1115
          (readVolts_1115 (setPGA_1115 .PGA4_096 initial_state)
            [⟨3, 0, 0⟩, ⟨2, 0x85, 0x83⟩, ⟨1, 0, 0⟩, ⟨2, 0x40, 0x00⟩,
        ⟨2, 0, 0⟩,
        ⟨3, 0, 0⟩, ⟨2, 0x85, 0x83⟩, ⟨1, 0, 0⟩, ⟨2, 0x40, 0x00⟩]).state
          (readVolts_1115 (setPGA_1115 .PGA4_096 initial_state)
            [⟨3, 0, 0⟩, ⟨2, 0x85, 0x83⟩, ⟨1, 0, 0⟩, ⟨2, 0x40, 0x00⟩,
        ⟨2, 0, 0⟩,
        ⟨3, 0, 0⟩, ⟨2, 0x85, 0x83⟩, ⟨1, 0, 0⟩, ⟨2, 0x40, 0x00⟩]).rest).state
        (readVolts_1115
          (readVolts_1115 (setPGA_1115 .PGA4_096 initial_state)
            [⟨3, 0, 0⟩, ⟨2, 0x85, 0x83⟩, ⟨1, 0, 0⟩, ⟨2, 0x40, 0x00⟩,
        ⟨2, 0, 0⟩,
        ⟨3, 0, 0⟩, ⟨2, 0x85, 0x83⟩, ⟨1, 0, 0⟩, ⟨2, 0x40, 0x00⟩]).state
          (readVolts_1115 (setPGA_1115 .PGA4_096 initial_state)
            [⟨3, 0, 0⟩, ⟨2, 0x85, 0x83⟩, ⟨1, 0, 0⟩, ⟨2, 0x40, 0x00⟩,
        ⟨2, 0, 0⟩,
        ⟨3, 0, 0⟩, ⟨2, 0x85, 0x83⟩, ⟨1, 0, 0⟩, ⟨2, 0x40, 0x00⟩]).rest).rest],
      o.value = some 2.048 := by
    intro o ho
    simp only [List.singleton_append, List.mem_cons, List.mem_singleton, List.not_mem_nil,
      or_false] at ho
    rcases ho with rfl | rfl
    · simp [readVolts_1115, poll_1115, read_into, twos_complement, setPGA_1115]
      norm_num
    · simp [readVolts_1115, poll_1115, read_into, twos_complement, setPGA_1115]
      norm_num
  exact (avgReads_includes_failed_sample 3 (by decide) 2.048
    (setPGA_1115 .PGA4_096 initial_state)
    [⟨3, 0, 0⟩, ⟨2, 0x85, 0x83⟩, ⟨1, 0, 0⟩, ⟨2, 0x40, 0x00⟩,
        ⟨2, 0, 0⟩,
        ⟨3, 0, 0⟩, ⟨2, 0x85, 0x83⟩, ⟨1, 0, 0⟩, ⟨2, 0x40, 0x00⟩]
    _ _
    (readVolts_1115
      (readVolts_1115 (setPGA_1115 .PGA4_096 initial_state)
        [⟨3, 0, 0⟩, ⟨2, 0x85, 0x83⟩, ⟨1, 0, 0⟩, ⟨2, 0x40, 0x00⟩,
        ⟨2, 0, 0⟩,
        ⟨3, 0, 0⟩, ⟨2, 0x85, 0x83⟩, ⟨1, 0, 0⟩, ⟨2, 0x40, 0x00⟩]).state
      (readVolts_1115 (setPGA_1115 .PGA4_096 initial_state)
        [⟨3, 0, 0⟩, ⟨2, 0x85, 0x83⟩, ⟨1, 0, 0⟩, ⟨2, 0x40, 0x00⟩,
        ⟨2, 0, 0⟩,
        ⟨3, 0, 0⟩, ⟨2, 0x85, 0x83⟩, ⟨1, 0, 0⟩, ⟨2, 0x40, 0x00⟩]).rest)
    rfl (by decide) hk).2.1

end LibADS1115
